import Mathlib

/-!
# X-HEEP / ESP host applications: firmware flattening and two-phase handshake

Shallow embedding of

* `esp_files/native/sw/linux/app/hello_xheep/xheep.c`            (namespace `hello_xheep`)
* `esp_files/native/sw/linux/app/SeizDetCNN_xheep/SeizDetCNN.c`  (namespace `SeizDetCNN_xheep`)
* `esp_files/native/sw/linux/app/SeizDetCNN_xheep/xheep_common.h`
* `sw/device/lib/sdk/timer/timer_sdk.c`                          (namespace `timer_sdk`)
* `sw/applications/esp_app_native/main.c`                        (namespace `esp_app_native`)

Integer model.  The host is an LP64 Linux system: `size_t` is 64 bits wide, `unsigned`
and `uint32_t` are 32 bits wide.  The tile is a 32-bit little-endian RISC-V core:
`unsigned`, `uint32_t` and `size_t` are 32 bits wide there.  Values are natural numbers
and every C operation that can wrap carries its modulus explicitly.

Memory model.  A `uint8_t *` is modelled by the function giving the byte stored at
each offset from the pointer; offsets at or beyond the allocation size are bytes
outside the buffer, so a write that leaves the buffer stays visible.
-/

namespace XHeep

/-! ## Shared declarations -/

/-- Bytes seen through a `uint8_t *`, indexed by the offset from the pointer. -/
abbrev Mem := Nat → Nat

/-- Modelled from the spec: the section record `xheep_firmware_fw_section_t` of
`xheep_firmware.h` (a generated header that is not among the sources), given by the
spec as base address, size in bytes and raw byte payload.  The sources print `addr`
with `%x` and `size` with `%u`, so both are 32-bit unsigned; `data` points to the
payload bytes, `data[k]` being `data.getD k 0`. -/
structure xheep_firmware_fw_section_t where
  addr : Nat
  size : Nat
  data : List Nat
deriving Repr, DecidableEq

/-- The C expression `section->addr + section->size`: a sum of two 32-bit unsigned
operands, evaluated modulo `2^32` and then widened to `size_t`. -/
def section_end (s : xheep_firmware_fw_section_t) : Nat :=
  (s.addr + s.size) % 2 ^ 32

/-- The C expression `(x + 7) & ~7` on a `size_t`: the sum wraps modulo `2^64`, and
`~7` (the `int` value `-8`) converts to the mask `2^64 - 8`. -/
def align_up_8 (x : Nat) : Nat :=
  ((x + 7) % 2 ^ 64) &&& (2 ^ 64 - 8)

/-- The libc call `memset(buffer, c, n)`. -/
def memset (buffer : Mem) (c n : Nat) : Mem :=
  fun i => if i < n then c else buffer i

/-- The libc call `memcpy(buffer + off, src, n)`. -/
def memcpy (buffer : Mem) (off : Nat) (src : List Nat) (n : Nat) : Mem :=
  fun i => if off ≤ i ∧ i < off + n then src.getD (i - off) 0 else buffer i

/-- `XHEEP_SHARED_STR_OFFSET` of `xheep_common.h`. -/
def XHEEP_SHARED_STR_OFFSET : Nat := 0x0000FA00
/-- `XHEEP_SHARED_STR_MAX` of `xheep_common.h`. -/
def XHEEP_SHARED_STR_MAX : Nat := 128
/-- `XHEEP_SHARED_RES_OFFSET` of `xheep_common.h`. -/
def XHEEP_SHARED_RES_OFFSET : Nat := 0x0000FA80
/-- `XHEEP_SHARED_RES_WORDS` of `xheep_common.h`. -/
def XHEEP_SHARED_RES_WORDS : Nat := 4
/-- `XHEEP_SHARED_STR_ADDR` of `xheep_common.h`. -/
def XHEEP_SHARED_STR_ADDR : Nat := XHEEP_SHARED_STR_OFFSET
/-- `XHEEP_SHARED_RES_ADDR` of `xheep_common.h`. -/
def XHEEP_SHARED_RES_ADDR : Nat := XHEEP_SHARED_RES_OFFSET
/-- `XHEEP_SHARED_RES_MAX_BYTES` of `xheep_common.h`, with `sizeof(uint32_t) = 4`. -/
def XHEEP_SHARED_RES_MAX_BYTES : Nat := XHEEP_SHARED_RES_WORDS * 4

/-- The two file-scope statics `fw_buffer_size` and `out_buffer_size`. -/
structure Params where
  fw_buffer_size : Nat
  out_buffer_size : Nat
deriving Repr, DecidableEq

/-- Largest `section->addr + section->size` of a table, `0` for the empty table
(the quantity the spec writes `max(addr+len)`). -/
def max_end (secs : List xheep_firmware_fw_section_t) : Nat :=
  (secs.map section_end).foldr max 0

/-- Largest exact sum `addr + size` of a table, `0` for the empty table. -/
def max_addr_plus_size (secs : List xheep_firmware_fw_section_t) : Nat :=
  (secs.map (fun s => s.addr + s.size)).foldr max 0

/-- The half-open byte range `[addr, addr + size)` a section occupies. -/
def covers (s : xheep_firmware_fw_section_t) (i : Nat) : Prop :=
  s.addr ≤ i ∧ i < s.addr + s.size

instance (s : xheep_firmware_fw_section_t) (i : Nat) : Decidable (covers s i) := by
  unfold covers; exact inferInstance

/-! ## Handshake: descriptors, environment and observable run -/

/-- Modelled from the spec: the handle type `contig_handle_t` of the ESP library (not
among the sources).  A run holds at most two handles, the firmware-source and the
result-sink buffer, named here after the variables `fw_contig` and `out_contig`. -/
inductive contig_handle_t
  | fw_contig
  | out_contig
deriving Repr, DecidableEq

/-- Modelled from the spec: `ACC_COH_NONE`, the coherence mode "none" of the ESP library
(its header is not among the sources); the first value of the enumeration. -/
def ACC_COH_NONE : Nat := 0

/-- Modelled from the spec: the fields of `struct esp_access` (ESP library header, not
among the sources) that `main` assigns; `contig` is `none` for the all-zero handle. -/
structure esp_access where
  contig : Option contig_handle_t
  run : Bool
  coherence : Nat
  p2p_store : Nat
  p2p_nsrcs : Nat
deriving Repr, DecidableEq

/-- Modelled from the spec: the transfer descriptor `struct xheep_rtl_access` of
`xheep_rtl.h` (not among the sources), with the fields `main` assigns and the driver's
`xheep_prep_xfer` writes to the device registers; all are 32-bit unsigned. -/
structure xheep_rtl_access where
  esp : esp_access
  boot_exit_loop : Nat
  boot_fetch_code : Nat
  boot_fetch_code_addr : Nat
  code_size_words : Nat
  src_offset : Nat
  dst_offset : Nat
deriving Repr, DecidableEq

/-- The descriptor after `memset(&desc, 0, sizeof(desc))`. -/
def desc_zero : xheep_rtl_access :=
  ⟨⟨none, false, 0, 0, 0⟩, 0, 0, 0, 0, 0, 0⟩

/-- What the system hands back to one run of `main`: whether each `contig_alloc`
returned a buffer, the value returned by `open`, the values returned by the two
`ioctl` calls, the content the firmware buffer has when it is allocated, and the
content of the output buffer when the second `ioctl` has returned.  A value that a
run never asks for is not looked at. -/
structure World where
  fw_buffer_ok : Bool
  out_buffer_ok : Bool
  fd : Int
  rc1 : Int
  rc2 : Int
  fw_buffer : Mem
  out_buffer : Mem

/-- The calls of `main` that acquire, use or release a resource, with their outcome. -/
inductive Event
  | contig_alloc (h : contig_handle_t) (size : Nat) (ok : Bool)
  | contig_free (h : contig_handle_t)
  | open_dev (fd : Int)
  | close_dev
  | ioctl_access (desc : xheep_rtl_access) (rc : Int)
deriving Repr, DecidableEq

/-- What `main` prints once both transfers have succeeded: the message the hello
application reads from the shared string region, or the four result words the CNN
application reads from the result block, with the label printed for the prediction. -/
inductive Report
  | message (shared_str : List Nat)
  | results (prediction : Nat) (label : String) (cycles : Nat) (fc1_out0 fc1_out1 : Int)
deriving Repr, DecidableEq

/-- One run of `main`: the resource calls in program order, the value of the local
`errors` (the soft-error counter) when `main` returns, the value `main` returns (the
process exit code), and the report when the run got as far as reading results. -/
structure Run where
  trace : List Event
  errors : Int
  exit_code : Int
  report : Option Report
deriving Repr, DecidableEq

/-- The descriptors handed to `ioctl`, in program order. -/
def transfers (t : List Event) : List xheep_rtl_access :=
  t.filterMap (fun e => match e with
    | Event.ioctl_access desc _ => some desc
    | _ => none)

/-- Whether a successful `contig_alloc` for the handle occurs in the trace. -/
def allocated (h : contig_handle_t) (t : List Event) : Bool :=
  t.any (fun e => match e with
    | Event.contig_alloc h2 _ ok => decide (h2 = h) && ok
    | _ => false)

/-- Whether a successful `open` occurs in the trace. -/
def opened (t : List Event) : Bool :=
  t.any (fun e => match e with
    | Event.open_dev fd => decide (0 ≤ fd)
    | _ => false)

/-- Every step of the run succeeds: both allocations, `open` and both transfers. -/
def all_succeed (w : World) : Prop :=
  w.fw_buffer_ok = true ∧ w.out_buffer_ok = true ∧ 0 ≤ w.fd ∧ 0 ≤ w.rc1 ∧ 0 ≤ w.rc2

instance (w : World) : Decidable (all_succeed w) := by
  unfold all_succeed; exact inferInstance

/-- A 32-bit load `((uint32_t *)(buffer + off))[0]` on the little-endian host. -/
def load32 (buffer : Mem) (off : Nat) : Nat :=
  buffer off % 256 + (buffer (off + 1) % 256) * 2 ^ 8
    + (buffer (off + 2) % 256) * 2 ^ 16 + (buffer (off + 3) % 256) * 2 ^ 24

/-- The cast `(int32_t)x` of a 32-bit unsigned value (two's complement). -/
def to_int32 (x : Nat) : Int :=
  if x % 2 ^ 32 < 2 ^ 31 then ((x % 2 ^ 32 : Nat) : Int)
  else ((x % 2 ^ 32 : Nat) : Int) - 2 ^ 32

/-- The bytes from `buffer + off` up to the end of a buffer of `size` bytes: what a
`char *` to that place can read without leaving the buffer.  A C string in it ends at
its first zero byte. -/
def bytes_from (buffer : Mem) (off size : Nat) : List Nat :=
  (List.range (size - off)).map (fun k => buffer (off + k))

/-- The C expression `*p` for a `const char *p`; the end of the list reads as the
terminating NUL. -/
def deref (p : List Nat) : Nat := p.headD 0

/-- The C string at `p`: the bytes before the first NUL. -/
def c_string (p : List Nat) : List Nat := p.takeWhile (fun c => c ≠ 0)

/-- A descriptor that asks for the CODE_FETCH transfer (phase 1). -/
def is_code_fetch (d : xheep_rtl_access) : Prop :=
  d.boot_fetch_code = 1 ∧ d.boot_exit_loop = 0

/-- A descriptor that asks for the BOOT_EXECUTE transfer (phase 2). -/
def is_boot_execute (d : xheep_rtl_access) : Prop :=
  d.boot_fetch_code = 0 ∧ d.boot_exit_loop = 1

/-- In a trace, every BOOT_EXECUTE transfer is preceded by a CODE_FETCH transfer that
returned success, and no transfer follows a CODE_FETCH transfer that failed. -/
def boot_only_after_fetch (t : List Event) : Prop :=
  (∀ (k : Nat) d rc, t[k]? = some (Event.ioctl_access d rc) → is_boot_execute d →
      ∃ (k1 : Nat) (d1 : xheep_rtl_access) (rc1 : Int),
        k1 < k ∧ t[k1]? = some (Event.ioctl_access d1 rc1) ∧ is_code_fetch d1 ∧ 0 ≤ rc1)
  ∧ (∀ (k : Nat) d rc, t[k]? = some (Event.ioctl_access d rc) → is_code_fetch d → rc < 0 →
      ∀ (k2 : Nat) d2 rc2, k < k2 → t[k2]? ≠ some (Event.ioctl_access d2 rc2))

/-- In a trace, each buffer is freed once if it was allocated and never otherwise, and
the device is closed once if it was opened and never otherwise. -/
def released_exactly_once (t : List Event) : Prop :=
  (∀ h, t.count (Event.contig_free h) = if allocated h t then 1 else 0)
  ∧ t.count Event.close_dev = if opened t then 1 else 0

/-- How often a trace frees the firmware buffer, frees the output buffer and closes
the device, in this order. -/
def release_counts (t : List Event) : Nat × Nat × Nat :=
  (t.count (Event.contig_free contig_handle_t.fw_contig),
   t.count (Event.contig_free contig_handle_t.out_contig),
   t.count Event.close_dev)

/-- The resource calls of a run as a function of the outcomes: the common shape of the
traces of both `main` functions, used to reason about them once. -/
def run_trace (fw_size out_size : Nat) (d1 d2 : xheep_rtl_access) (w : World) : List Event :=
  if w.fw_buffer_ok = false then
    [Event.contig_alloc contig_handle_t.fw_contig fw_size w.fw_buffer_ok]
  else if w.out_buffer_ok = false then
    [Event.contig_alloc contig_handle_t.fw_contig fw_size w.fw_buffer_ok,
     Event.contig_alloc contig_handle_t.out_contig out_size w.out_buffer_ok,
     Event.contig_free contig_handle_t.fw_contig]
  else if w.fd < 0 then
    [Event.contig_alloc contig_handle_t.fw_contig fw_size w.fw_buffer_ok,
     Event.contig_alloc contig_handle_t.out_contig out_size w.out_buffer_ok,
     Event.open_dev w.fd,
     Event.contig_free contig_handle_t.fw_contig, Event.contig_free contig_handle_t.out_contig]
  else if w.rc1 < 0 then
    [Event.contig_alloc contig_handle_t.fw_contig fw_size w.fw_buffer_ok,
     Event.contig_alloc contig_handle_t.out_contig out_size w.out_buffer_ok,
     Event.open_dev w.fd,
     Event.ioctl_access d1 w.rc1,
     Event.close_dev,
     Event.contig_free contig_handle_t.fw_contig, Event.contig_free contig_handle_t.out_contig]
  else
    [Event.contig_alloc contig_handle_t.fw_contig fw_size w.fw_buffer_ok,
     Event.contig_alloc contig_handle_t.out_contig out_size w.out_buffer_ok,
     Event.open_dev w.fd,
     Event.ioctl_access d1 w.rc1,
     Event.ioctl_access d2 w.rc2,
     Event.close_dev,
     Event.contig_free contig_handle_t.fw_contig, Event.contig_free contig_handle_t.out_contig]

/-- A 32-bit little-endian store `((uint32_t *)(buffer + off))[0] = v`, as the tile
performs it. -/
def store32 (buffer : Mem) (off v : Nat) : Mem :=
  fun i => if off ≤ i ∧ i < off + 4 then (v / 256 ^ (i - off)) % 256 else buffer i

/-- Example outcome: every call succeeds and the result block starts with the word
`prediction`, all other bytes of both buffers being zero. -/
def world_with_prediction (prediction : Nat) : World :=
  ⟨true, true, 3, 0, 0, fun _ => 0, store32 (fun _ => 0) XHEEP_SHARED_RES_ADDR prediction⟩

/-- Example section: two payload bytes at address `0xFFFFFFFF`, so that the exact end
`addr + size` is `2^32 + 1` while the 32-bit sum the code evaluates is 1. -/
def wrapping_section : xheep_firmware_fw_section_t :=
  ⟨0xFFFFFFFF, 2, [17, 34]⟩

/-- Example table: four bytes at address `0xFFFFFFF0`, followed by an entry of `0x20`
bytes (all 9) at the same address, whose exact end is `2^32 + 0x10`. -/
def overlapping_table : List xheep_firmware_fw_section_t :=
  [⟨0xFFFFFFF0, 4, [1, 2, 3, 4]⟩, ⟨0xFFFFFFF0, 0x20, List.replicate 0x20 9⟩]

/-- Example outcome: the first `contig_alloc` fails. -/
def world_fw_alloc_fails : World :=
  ⟨false, true, 3, 0, 0, fun _ => 0, fun _ => 0⟩

/-- Example outcome: both allocations and `open` succeed, the CODE_FETCH `ioctl` returns
`-1`. -/
def world_fetch_fails : World :=
  ⟨true, true, 3, -1, 0, fun _ => 0, fun _ => 0⟩

/-- Example outcome: every call succeeds and the result block holds the four given
words, all other bytes of both buffers being zero. -/
def world_with_results (w0 w1 w2 w3 : Nat) : World :=
  ⟨true, true, 3, 0, 0, fun _ => 0,
    store32 (store32 (store32 (store32 (fun _ => 0)
      XHEEP_SHARED_RES_ADDR w0) (XHEEP_SHARED_RES_ADDR + 4) w1)
      (XHEEP_SHARED_RES_ADDR + 8) w2) (XHEEP_SHARED_RES_ADDR + 12) w3⟩

/-- What the section loop of `flatten_firmware` prints for one table entry, identified
by its index `s`: the `[WARN] Section s ... exceeds buffer` line of the skipping branch,
or the line printed after the `memcpy` of the copying branch. -/
inductive LogLine
  | warn (s : Nat)
  | copied (s : Nat)
deriving Repr, DecidableEq

/-! ## `hello_xheep/xheep.c` -/

namespace hello_xheep

/-- `init_parameters` of `xheep.c`.  The table `xheep_firmware_sections` (declared in the
generated `xheep_firmware.h`) is its parameter, `XHEEP_FIRMWARE_NUM_SECTIONS` being the
number of its entries; the result holds the two statics the function assigns.  The sum
`XHEEP_SHARED_STR_ADDR + XHEEP_SHARED_STR_MAX` has type `unsigned`. -/
def init_parameters (xheep_firmware_sections : List xheep_firmware_fw_section_t) : Params :=
  let fw_buffer_size := xheep_firmware_sections.foldl
    (fun fw_buffer_size s =>
      if section_end s > fw_buffer_size then section_end s else fw_buffer_size) 0
  let fw_buffer_size := align_up_8 fw_buffer_size
  let out_buffer_size := (XHEEP_SHARED_STR_ADDR + XHEEP_SHARED_STR_MAX) % 2 ^ 32
  let out_buffer_size := align_up_8 out_buffer_size
  ⟨fw_buffer_size, out_buffer_size⟩

/-- `flatten_firmware` of `xheep.c`: zero the buffer, then copy every section that
passes the bounds check, in table order. -/
def flatten_firmware (xheep_firmware_sections : List xheep_firmware_fw_section_t)
    (buffer : Mem) (buffer_size : Nat) : Mem :=
  xheep_firmware_sections.foldl
    (fun buffer s =>
      if section_end s > buffer_size then buffer
      else memcpy buffer s.addr s.data s.size)
    (memset buffer 0 buffer_size)

/-- `flatten_firmware` of `xheep.c` together with what its section loop prints: the
memory as in `flatten_firmware`, and one line per table entry, in table order. -/
def flatten_firmware_logged (xheep_firmware_sections : List xheep_firmware_fw_section_t)
    (buffer : Mem) (buffer_size : Nat) : Mem × List LogLine :=
  xheep_firmware_sections.enum.foldl
    (fun st e =>
      if section_end e.2 > buffer_size then (st.1, st.2 ++ [LogLine.warn e.1])
      else (memcpy st.1 e.2.addr e.2.data e.2.size, st.2 ++ [LogLine.copied e.1]))
    (memset buffer 0 buffer_size, [])

/-- The inner `while (*h_it && *n_it && *h_it == *n_it)` loop of `contains_str`; the
result is `n_it` when the loop is left. -/
def match_run : List Nat → List Nat → List Nat
  | h :: h_it, n :: n_it =>
    if h ≠ 0 ∧ n ≠ 0 ∧ h = n then match_run h_it n_it else n :: n_it
  | [], n_it => n_it
  | _ :: _, [] => []

/-- The `for (h = haystack; *h; ++h)` loop of `contains_str`, from the position `h`. -/
def scan : List Nat → List Nat → Bool
  | [], _ => false
  | c :: h, needle =>
    if c = 0 then false
    else if c ≠ deref needle then scan h needle
    else if deref (match_run (c :: h) needle) = 0 then true
    else scan h needle

/-- `contains_str` of `xheep.c`. -/
def contains_str (haystack needle : List Nat) : Bool :=
  if deref needle = 0 then true else scan haystack needle

/-- The string literal `main` looks for. -/
def expected_str : List Nat := "Hello from X-Heep Native tile".toList.map Char.toNat

/-- The firmware image `main` builds: `flatten_firmware(fw_buffer, fw_buffer_size)` on
the freshly allocated firmware buffer. -/
def fw_image (xheep_firmware_sections : List xheep_firmware_fw_section_t) (w : World) : Mem :=
  flatten_firmware xheep_firmware_sections w.fw_buffer
    (init_parameters xheep_firmware_sections).fw_buffer_size

/-- The descriptor `main` fills in for phase 1 (code fetch): cleared, then assigned
field by field; `code_size_words` is a 32-bit field. -/
def desc_phase1 (fw_buffer_size : Nat) : xheep_rtl_access :=
  { desc_zero with
    esp := { desc_zero.esp with
      contig := some contig_handle_t.fw_contig
      run := true
      coherence := ACC_COH_NONE
      p2p_store := 0
      p2p_nsrcs := 0 }
    code_size_words := (fw_buffer_size / 4) % 2 ^ 32
    boot_fetch_code_addr := 0
    boot_fetch_code := 1
    boot_exit_loop := 0
    src_offset := 0
    dst_offset := 0 }

/-- The descriptor `main` fills in for phase 2 (boot and execute). -/
def desc_phase2 : xheep_rtl_access :=
  { desc_zero with
    esp := { desc_zero.esp with
      contig := some contig_handle_t.out_contig
      run := true
      coherence := ACC_COH_NONE
      p2p_store := 0
      p2p_nsrcs := 0 }
    code_size_words := 0
    boot_fetch_code_addr := 0
    boot_fetch_code := 0
    boot_exit_loop := 1
    src_offset := 0
    dst_offset := 0 }

/-- `main` of `xheep.c`, for a section table and the outcomes the system hands back.
The string at `shared_str` is read inside the output buffer: when the 128 bytes from
`XHEEP_SHARED_STR_ADDR` hold a NUL, this is what the C code reads; when they hold none,
the C code reads on past the buffer (undefined behaviour, outside this model), and the
model then takes the end of the buffer for the end of the string. -/
def main (xheep_firmware_sections : List xheep_firmware_fw_section_t) (w : World) : Run :=
  let errors : Int := 0
  let p := init_parameters xheep_firmware_sections
  let t := [Event.contig_alloc contig_handle_t.fw_contig p.fw_buffer_size w.fw_buffer_ok]
  if w.fw_buffer_ok = false then
    ⟨t, errors, 1, none⟩
  else
  let t := t ++ [Event.contig_alloc contig_handle_t.out_contig p.out_buffer_size w.out_buffer_ok]
  if w.out_buffer_ok = false then
    ⟨t ++ [Event.contig_free contig_handle_t.fw_contig], errors, 1, none⟩
  else
  let t := t ++ [Event.open_dev w.fd]
  if w.fd < 0 then
    ⟨t ++ [Event.contig_free contig_handle_t.fw_contig,
           Event.contig_free contig_handle_t.out_contig], errors, 1, none⟩
  else
  let t := t ++ [Event.ioctl_access (desc_phase1 p.fw_buffer_size) w.rc1]
  if w.rc1 < 0 then
    ⟨t ++ [Event.close_dev, Event.contig_free contig_handle_t.fw_contig,
           Event.contig_free contig_handle_t.out_contig], errors, 1, none⟩
  else
  let t := t ++ [Event.ioctl_access desc_phase2 w.rc2]
  if w.rc2 < 0 then
    ⟨t ++ [Event.close_dev, Event.contig_free contig_handle_t.fw_contig,
           Event.contig_free contig_handle_t.out_contig], errors, 1, none⟩
  else
  let shared_str := bytes_from w.out_buffer XHEEP_SHARED_STR_ADDR p.out_buffer_size
  let errors := if contains_str shared_str expected_str = false then errors + 1 else errors
  let t := t ++ [Event.close_dev, Event.contig_free contig_handle_t.fw_contig,
                 Event.contig_free contig_handle_t.out_contig]
  ⟨t, errors, errors, some (Report.message (c_string shared_str))⟩

end hello_xheep

/-! ## `SeizDetCNN_xheep/SeizDetCNN.c` -/

namespace SeizDetCNN_xheep

/-- `init_parameters` of `SeizDetCNN.c`, with the section table as its parameter.  The
sum `XHEEP_SHARED_RES_ADDR + XHEEP_SHARED_RES_MAX_BYTES` has type `size_t`. -/
def init_parameters (xheep_firmware_sections : List xheep_firmware_fw_section_t) : Params :=
  let fw_buffer_size := xheep_firmware_sections.foldl
    (fun fw_buffer_size s =>
      if section_end s > fw_buffer_size then section_end s else fw_buffer_size) 0
  let fw_buffer_size := align_up_8 fw_buffer_size
  let out_buffer_size := (XHEEP_SHARED_RES_ADDR + XHEEP_SHARED_RES_MAX_BYTES) % 2 ^ 64
  let out_buffer_size := align_up_8 out_buffer_size
  ⟨fw_buffer_size, out_buffer_size⟩

/-- `flatten_firmware` of `SeizDetCNN.c`. -/
def flatten_firmware (xheep_firmware_sections : List xheep_firmware_fw_section_t)
    (buffer : Mem) (buffer_size : Nat) : Mem :=
  xheep_firmware_sections.foldl
    (fun buffer s =>
      if section_end s > buffer_size then buffer
      else memcpy buffer s.addr s.data s.size)
    (memset buffer 0 buffer_size)

/-- `flatten_firmware` of `SeizDetCNN.c` together with what its section loop prints:
the memory as in `flatten_firmware`, and one line per table entry, in table order. -/
def flatten_firmware_logged (xheep_firmware_sections : List xheep_firmware_fw_section_t)
    (buffer : Mem) (buffer_size : Nat) : Mem × List LogLine :=
  xheep_firmware_sections.enum.foldl
    (fun st e =>
      if section_end e.2 > buffer_size then (st.1, st.2 ++ [LogLine.warn e.1])
      else (memcpy st.1 e.2.addr e.2.data e.2.size, st.2 ++ [LogLine.copied e.1]))
    (memset buffer 0 buffer_size, [])

/-- The firmware image `main` builds: `flatten_firmware(fw_buffer, fw_buffer_size)` on
the freshly allocated firmware buffer. -/
def fw_image (xheep_firmware_sections : List xheep_firmware_fw_section_t) (w : World) : Mem :=
  flatten_firmware xheep_firmware_sections w.fw_buffer
    (init_parameters xheep_firmware_sections).fw_buffer_size

/-- The descriptor `main` fills in for phase 1 (code fetch): cleared, then assigned
field by field; `sizeof(token_t)` is 4 and `code_size_words` is a 32-bit field. -/
def desc_phase1 (fw_buffer_size : Nat) : xheep_rtl_access :=
  { desc_zero with
    esp := { desc_zero.esp with
      contig := some contig_handle_t.fw_contig
      run := true
      coherence := ACC_COH_NONE
      p2p_store := 0
      p2p_nsrcs := 0 }
    code_size_words := (fw_buffer_size / 4) % 2 ^ 32
    boot_fetch_code_addr := 0
    boot_fetch_code := 1
    boot_exit_loop := 0
    src_offset := 0
    dst_offset := 0 }

/-- The descriptor `main` fills in for phase 2 (boot and execute). -/
def desc_phase2 : xheep_rtl_access :=
  { desc_zero with
    esp := { desc_zero.esp with
      contig := some contig_handle_t.out_contig
      run := true
      coherence := ACC_COH_NONE
      p2p_store := 0
      p2p_nsrcs := 0 }
    code_size_words := 0
    boot_fetch_code_addr := 0
    boot_fetch_code := 0
    boot_exit_loop := 1
    src_offset := 0
    dst_offset := 0 }

/-- `main` of `SeizDetCNN.c`, for a section table and the outcomes the system hands
back. -/
def main (xheep_firmware_sections : List xheep_firmware_fw_section_t) (w : World) : Run :=
  let errors : Int := 0
  let p := init_parameters xheep_firmware_sections
  let t := [Event.contig_alloc contig_handle_t.fw_contig p.fw_buffer_size w.fw_buffer_ok]
  if w.fw_buffer_ok = false then
    ⟨t, errors, 1, none⟩
  else
  let t := t ++ [Event.contig_alloc contig_handle_t.out_contig p.out_buffer_size w.out_buffer_ok]
  if w.out_buffer_ok = false then
    ⟨t ++ [Event.contig_free contig_handle_t.fw_contig], errors, 1, none⟩
  else
  let t := t ++ [Event.open_dev w.fd]
  if w.fd < 0 then
    ⟨t ++ [Event.contig_free contig_handle_t.fw_contig,
           Event.contig_free contig_handle_t.out_contig], errors, 1, none⟩
  else
  let t := t ++ [Event.ioctl_access (desc_phase1 p.fw_buffer_size) w.rc1]
  if w.rc1 < 0 then
    ⟨t ++ [Event.close_dev, Event.contig_free contig_handle_t.fw_contig,
           Event.contig_free contig_handle_t.out_contig], errors, 1, none⟩
  else
  let t := t ++ [Event.ioctl_access desc_phase2 w.rc2]
  if w.rc2 < 0 then
    ⟨t ++ [Event.close_dev, Event.contig_free contig_handle_t.fw_contig,
           Event.contig_free contig_handle_t.out_contig], errors, 1, none⟩
  else
  let prediction := load32 w.out_buffer XHEEP_SHARED_RES_ADDR
  let cycles := load32 w.out_buffer (XHEEP_SHARED_RES_ADDR + 4)
  let fc1_out0 := to_int32 (load32 w.out_buffer (XHEEP_SHARED_RES_ADDR + 8))
  let fc1_out1 := to_int32 (load32 w.out_buffer (XHEEP_SHARED_RES_ADDR + 12))
  let label := if prediction ≠ 0 then "Seizure" else "Normal"
  let errors := if prediction > 1 then errors + 1 else errors
  let t := t ++ [Event.close_dev, Event.contig_free contig_handle_t.fw_contig,
                 Event.contig_free contig_handle_t.out_contig]
  ⟨t, errors, errors, some (Report.results prediction label cycles fc1_out0 fc1_out1)⟩

end SeizDetCNN_xheep

/-! ## `sw/device/lib/sdk/timer/timer_sdk.c` -/

namespace timer_sdk

/-- `hw_timer_get_cycles`: the 64-bit counter value that `rv_timer_counter_read` stores
in `cycle_count` is the parameter; the result is the cast `(uint32_t)cycle_count`. -/
def hw_timer_get_cycles (cycle_count : Nat) : Nat :=
  cycle_count % 2 ^ 32

/-- `hw_timer_start`: the new value of the global `uint32_t hw_timer_value`, the
unsigned negation of the reading. -/
def hw_timer_start (cycle_count : Nat) : Nat :=
  (2 ^ 32 - hw_timer_get_cycles cycle_count) % 2 ^ 32

/-- `hw_timer_stop`: adds the reading to the global `hw_timer_value` (32-bit unsigned
addition) and returns the new value, which is also the new state. -/
def hw_timer_stop (hw_timer_value cycle_count : Nat) : Nat :=
  (hw_timer_value + hw_timer_get_cycles cycle_count) % 2 ^ 32

end timer_sdk

/-! ## `sw/applications/esp_app_native/main.c` -/

namespace esp_app_native

/-- The array `xheep_native_msg`: the characters of the literal (all ASCII, so a `char`
converts to the same `uint32_t` whether it is signed or not) and its terminating NUL. -/
def xheep_native_msg : List Nat :=
  "Hello from X-Heep Native tile!\n".toList.map Char.toNat ++ [0]

/-- The word `axi_msg_words[i]`: a 32-bit load from the message on the little-endian
tile. -/
def axi_msg_words (i : Nat) : Nat :=
  load32 (fun k => xheep_native_msg.getD k 0) (4 * i)

/-- The value of `num_words`, with `sizeof(xheep_native_msg)` the length of the array. -/
def num_words : Nat := ((xheep_native_msg.length + 3) / 4) % 2 ^ 32

/-- The value of `remaining_bytes`: `sizeof(xheep_native_msg) - (num_words - 1) * 4` in
32-bit unsigned arithmetic. -/
def remaining_bytes : Nat :=
  (xheep_native_msg.length + 2 ^ 32
    - ((num_words + 2 ^ 32 - 1) % 2 ^ 32 * 4) % 2 ^ 32) % 2 ^ 32

/-- The value of `last_word` after the padding loop: the bytes `last_bytes[i]`, each
shifted to its place in a 32-bit word. -/
def last_word : Nat :=
  (List.range remaining_bytes).foldl
    (fun last_word i =>
      last_word |||
        ((xheep_native_msg.getD ((num_words + 2 ^ 32 - 1) % 2 ^ 32 * 4 + i) 0) <<< (i * 8))
          % 2 ^ 32)
    0

/-- `main` of the embedded hello firmware: the memory seen through `esp_string`
(byte offsets from the start of the shared string region, the pointer being
`EXT_SLAVE_START_ADDRESS + XHEEP_SHARED_STR_ADDR`) after the word-wise copy loop over
`i < num_words - 1` and the store of the last word. -/
def main (esp_string : Mem) : Mem :=
  let esp_string := (List.range ((num_words + 2 ^ 32 - 1) % 2 ^ 32)).foldl
    (fun esp_string i => store32 esp_string (4 * i) (axi_msg_words i)) esp_string
  store32 esp_string (4 * ((num_words + 2 ^ 32 - 1) % 2 ^ 32)) last_word

/-- Example outcome: every call succeeds and the output buffer holds, from offset
`XHEEP_SHARED_STR_ADDR` on, what the firmware wrote into a zeroed string region. -/
def world_after_hello : World :=
  ⟨true, true, 3, 0, 0, fun _ => 0,
    fun i => if XHEEP_SHARED_STR_ADDR ≤ i then main (fun _ => 0) (i - XHEEP_SHARED_STR_ADDR)
      else 0⟩

end esp_app_native

/-! ## Arithmetic of the size computation -/

theorem land_mask_eq (y : Nat) (hy : y < 2 ^ 64) : y &&& (2 ^ 64 - 8) = 8 * (y / 8) := by
  apply Nat.eq_of_testBit_eq
  intro i
  have h1 : (2 : Nat) ^ 64 - 8 = 2 ^ 3 * (2 ^ 61 - 1) := by norm_num
  have h2 : 8 * (y / 8) = 2 ^ 3 * (y >>> 3) := by
    rw [Nat.shiftRight_eq_div_pow]; norm_num
  rw [Nat.testBit_and, h1, h2, Nat.testBit_mul_pow_two, Nat.testBit_mul_pow_two,
    Nat.testBit_two_pow_sub_one, Nat.testBit_shiftRight]
  by_cases h3 : 3 ≤ i
  · have e : 3 + (i - 3) = i := by omega
    by_cases h4 : i < 64
    · have h5 : i - 3 < 61 := by omega
      simp [h3, h5, e]
    · have h5 : ¬ (i - 3 < 61) := by omega
      have hb : y.testBit i = false := by
        apply Nat.testBit_lt_two_pow
        calc y < 2 ^ 64 := hy
          _ ≤ 2 ^ i := Nat.pow_le_pow_right (by norm_num) (by omega)
      simp [h3, h5, e, hb]
  · simp [h3]

theorem align_up_8_eq (x : Nat) (hx : x + 7 < 2 ^ 64) : align_up_8 x = 8 * ((x + 7) / 8) := by
  unfold align_up_8
  rw [Nat.mod_eq_of_lt hx, land_mask_eq _ hx]

theorem section_end_lt (s : xheep_firmware_fw_section_t) : section_end s < 2 ^ 32 :=
  Nat.mod_lt _ (by norm_num)

theorem section_end_le (s : xheep_firmware_fw_section_t) : section_end s ≤ s.addr + s.size :=
  Nat.mod_le _ _

theorem section_end_exact (s : xheep_firmware_fw_section_t) (h : s.addr + s.size < 2 ^ 32) :
    section_end s = s.addr + s.size :=
  Nat.mod_eq_of_lt h

theorem max_end_lt (secs : List xheep_firmware_fw_section_t) : max_end secs < 2 ^ 32 := by
  induction secs with
  | nil => simp [max_end]
  | cons s t ih =>
    have h1 := section_end_lt s
    have h2 : max_end (s :: t) = max (section_end s) (max_end t) := rfl
    rw [h2]
    exact max_lt h1 ih

theorem le_max_end {secs : List xheep_firmware_fw_section_t} {s : xheep_firmware_fw_section_t}
    (h : s ∈ secs) : section_end s ≤ max_end secs := by
  induction secs with
  | nil => cases h
  | cons a t ih =>
    have h2 : max_end (a :: t) = max (section_end a) (max_end t) := rfl
    rw [h2]
    rcases List.mem_cons.mp h with rfl | h'
    · exact le_max_left _ _
    · exact le_trans (ih h') (le_max_right _ _)

theorem max_end_le {secs : List xheep_firmware_fw_section_t} {m : Nat}
    (h : ∀ s ∈ secs, section_end s ≤ m) : max_end secs ≤ m := by
  induction secs with
  | nil => simp [max_end]
  | cons a t ih =>
    have h2 : max_end (a :: t) = max (section_end a) (max_end t) := rfl
    rw [h2]
    exact max_le (h a (List.mem_cons_self _ _))
      (ih (fun s hs => h s (List.mem_cons_of_mem _ hs)))

theorem size_loop_eq (secs : List xheep_firmware_fw_section_t) (a : Nat) :
    secs.foldl (fun fw_buffer_size s =>
      if section_end s > fw_buffer_size then section_end s else fw_buffer_size) a
      = max a (max_end secs) := by
  induction secs generalizing a with
  | nil => simp [max_end]
  | cons s t ih =>
    have h2 : max_end (s :: t) = max (section_end s) (max_end t) := rfl
    rw [List.foldl_cons, ih, h2]
    by_cases h : section_end s > a
    · rw [if_pos h]; omega
    · rw [if_neg h]; omega

theorem fw_buffer_size_eq (secs : List xheep_firmware_fw_section_t) :
    (hello_xheep.init_parameters secs).fw_buffer_size = 8 * ((max_end secs + 7) / 8) := by
  have h := max_end_lt secs
  show align_up_8 _ = _
  rw [size_loop_eq, Nat.zero_max, align_up_8_eq]
  omega

theorem max_end_exact (secs : List xheep_firmware_fw_section_t)
    (h : ∀ s ∈ secs, s.addr + s.size < 2 ^ 32) : max_end secs = max_addr_plus_size secs := by
  induction secs with
  | nil => rfl
  | cons a t ih =>
    have h1 : max_end (a :: t) = max (section_end a) (max_end t) := rfl
    have h2 : max_addr_plus_size (a :: t) = max (a.addr + a.size) (max_addr_plus_size t) := rfl
    rw [h1, h2, ih (fun s hs => h s (List.mem_cons_of_mem _ hs)),
      section_end_exact a (h a (List.mem_cons_self _ _))]

/-! ## The copy loop of `flatten_firmware` -/

/-- The body of `flatten_firmware`: the zero fill followed by the section loop. -/
theorem flatten_eq_foldl (secs : List xheep_firmware_fw_section_t) (buffer : Mem) (n : Nat) :
    hello_xheep.flatten_firmware secs buffer n
      = secs.foldl (fun buffer s =>
          if section_end s > n then buffer else memcpy buffer s.addr s.data s.size)
          (memset buffer 0 n) := rfl

theorem copy_loop_untouched (n i : Nat) (secs : List xheep_firmware_fw_section_t) (m : Mem)
    (h : ∀ t ∈ secs, ¬ (section_end t ≤ n ∧ covers t i)) :
    secs.foldl (fun buffer s =>
        if section_end s > n then buffer else memcpy buffer s.addr s.data s.size) m i = m i := by
  induction secs generalizing m with
  | nil => rfl
  | cons a t ih =>
    rw [List.foldl_cons, ih _ (fun s hs => h s (List.mem_cons_of_mem _ hs))]
    have ha := h a (List.mem_cons_self _ _)
    by_cases hg : section_end a > n
    · rw [if_pos hg]
    · rw [if_neg hg]
      have hc : ¬ (a.addr ≤ i ∧ i < a.addr + a.size) := fun hc => ha ⟨by omega, hc⟩
      simp only [memcpy, if_neg hc]

theorem copy_loop_last (n i : Nat) (pre post : List xheep_firmware_fw_section_t)
    (s : xheep_firmware_fw_section_t) (m : Mem)
    (hfit : section_end s ≤ n) (hcov : covers s i)
    (hpost : ∀ t ∈ post, ¬ (section_end t ≤ n ∧ covers t i)) :
    (pre ++ s :: post).foldl (fun buffer s =>
        if section_end s > n then buffer else memcpy buffer s.addr s.data s.size) m i
      = s.data.getD (i - s.addr) 0 := by
  rw [List.foldl_append, List.foldl_cons, copy_loop_untouched n i post _ hpost]
  have hg : ¬ section_end s > n := by omega
  rw [if_neg hg]
  have hc : s.addr ≤ i ∧ i < s.addr + s.size := hcov
  simp only [memcpy, if_pos hc]

theorem copy_loop_skip (n : Nat) (pre post : List xheep_firmware_fw_section_t)
    (s : xheep_firmware_fw_section_t) (m : Mem) (hskip : section_end s > n) :
    (pre ++ s :: post).foldl (fun buffer s =>
        if section_end s > n then buffer else memcpy buffer s.addr s.data s.size) m
      = (pre ++ post).foldl (fun buffer s =>
        if section_end s > n then buffer else memcpy buffer s.addr s.data s.size) m := by
  rw [List.foldl_append, List.foldl_cons, if_pos hskip, List.foldl_append]

theorem split_at_index (secs : List xheep_firmware_fw_section_t) (j : Nat)
    (hj : j < secs.length) : secs = secs.take j ++ secs[j] :: secs.drop (j + 1) := by
  rw [← List.drop_eq_getElem_cons hj, List.take_append_drop]

theorem copy_loop_split (n : Nat) (secs : List xheep_firmware_fw_section_t) (j : Nat)
    (hj : j < secs.length) (m : Mem) :
    secs.foldl (fun buffer s =>
        if section_end s > n then buffer else memcpy buffer s.addr s.data s.size) m
      = (secs.take j ++ secs[j] :: secs.drop (j + 1)).foldl (fun buffer s =>
        if section_end s > n then buffer else memcpy buffer s.addr s.data s.size) m :=
  congrArg (fun l => List.foldl (fun buffer s =>
        if section_end s > n then buffer else memcpy buffer s.addr s.data s.size) m l)
    (split_at_index secs j hj)

theorem mem_drop_succ {secs : List xheep_firmware_fw_section_t} {j : Nat}
    {t : xheep_firmware_fw_section_t} (ht : t ∈ secs.drop (j + 1)) :
    ∃ k, ∃ hk : k < secs.length, j < k ∧ secs[k] = t := by
  obtain ⟨k, hk, rfl⟩ := List.mem_iff_getElem.mp ht
  have hk2 : j + 1 + k < secs.length := by
    rw [List.length_drop] at hk; omega
  refine ⟨j + 1 + k, hk2, by omega, ?_⟩
  rw [List.getElem_drop]

/-! ## The handshake -/

theorem hello_main_trace (secs : List xheep_firmware_fw_section_t) (w : World) :
    (hello_xheep.main secs w).trace
      = run_trace (hello_xheep.init_parameters secs).fw_buffer_size
          (hello_xheep.init_parameters secs).out_buffer_size
          (hello_xheep.desc_phase1 (hello_xheep.init_parameters secs).fw_buffer_size)
          hello_xheep.desc_phase2 w := by
  unfold hello_xheep.main run_trace
  simp only []
  split_ifs <;> simp

theorem cnn_main_trace (secs : List xheep_firmware_fw_section_t) (w : World) :
    (SeizDetCNN_xheep.main secs w).trace
      = run_trace (SeizDetCNN_xheep.init_parameters secs).fw_buffer_size
          (SeizDetCNN_xheep.init_parameters secs).out_buffer_size
          (SeizDetCNN_xheep.desc_phase1 (SeizDetCNN_xheep.init_parameters secs).fw_buffer_size)
          SeizDetCNN_xheep.desc_phase2 w := by
  unfold SeizDetCNN_xheep.main run_trace
  simp only []
  split_ifs <;> simp

theorem run_trace_released (fw_size out_size : Nat) (d1 d2 : xheep_rtl_access) (w : World) :
    released_exactly_once (run_trace fw_size out_size d1 d2 w) := by
  unfold released_exactly_once run_trace
  split_ifs <;> refine ⟨fun h => ?_, ?_⟩ <;> try cases h
  all_goals simp_all [allocated, opened, List.count_cons]
  all_goals omega

theorem run_trace_boot_only_after_fetch (fw_size out_size : Nat) (d1 d2 : xheep_rtl_access)
    (w : World) (h1 : is_code_fetch d1) (h2 : is_boot_execute d2) :
    boot_only_after_fetch (run_trace fw_size out_size d1 d2 w) := by
  have hne1 : ¬ is_boot_execute d1 := by
    unfold is_boot_execute; unfold is_code_fetch at h1; omega
  have hne2 : ¬ is_code_fetch d2 := by
    unfold is_code_fetch; unfold is_boot_execute at h2; omega
  unfold boot_only_after_fetch run_trace
  split_ifs with c1 c2 c3 c4 <;> constructor <;> intro k d rc hk hd <;>
    rcases k with _ | _ | _ | _ | _ | _ | _ | _ | _ | k <;>
    simp at hk <;> obtain ⟨rfl, rfl⟩ := hk
  all_goals first
    | exact absurd hd hne1
    | exact absurd hd hne2
    | exact ⟨3, d1, w.rc1, by omega, by simp, h1, by omega⟩
    | (intro hrc k2 d3 rc3 hlt
       first
       | omega
       | (rcases k2 with _ | _ | _ | _ | _ | _ | _ | _ | _ | k2 <;> first | omega | simp))

theorem run_trace_transfers (fw_size out_size : Nat) (d1 d2 : xheep_rtl_access) (w : World)
    (h : all_succeed w) : transfers (run_trace fw_size out_size d1 d2 w) = [d1, d2] := by
  obtain ⟨h1, h2, h3, h4, h5⟩ := h
  unfold run_trace
  rw [if_neg (by simp [h1]), if_neg (by simp [h2]), if_neg (by omega), if_neg (by omega)]
  rfl

theorem run_trace_release_counts (fw_size out_size : Nat) (d1 d2 : xheep_rtl_access)
    (w : World) :
    (w.fw_buffer_ok = false →
        release_counts (run_trace fw_size out_size d1 d2 w) = (0, 0, 0))
      ∧ (w.fw_buffer_ok = true → w.out_buffer_ok = false →
        release_counts (run_trace fw_size out_size d1 d2 w) = (1, 0, 0))
      ∧ (w.fw_buffer_ok = true → w.out_buffer_ok = true → w.fd < 0 →
        release_counts (run_trace fw_size out_size d1 d2 w) = (1, 1, 0))
      ∧ (w.fw_buffer_ok = true → w.out_buffer_ok = true → 0 ≤ w.fd →
        release_counts (run_trace fw_size out_size d1 d2 w) = (1, 1, 1)) := by
  unfold release_counts run_trace
  refine ⟨fun h1 => ?_, fun h1 h2 => ?_, fun h1 h2 h3 => ?_, fun h1 h2 h3 => ?_⟩
  · simp [h1, List.count_cons]
  · simp [h1, h2, List.count_cons]
  · simp [h1, h2, h3, List.count_cons]
  · have h3n : ¬ w.fd < 0 := by omega
    by_cases h4 : w.rc1 < 0
    · simp [h1, h2, h3n, h4, List.count_cons]
    · simp [h1, h2, h3n, h4, List.count_cons]

theorem run_trace_fetch_fails (fw_size out_size : Nat) (d1 d2 : xheep_rtl_access) (w : World)
    (h1 : w.fw_buffer_ok = true) (h2 : w.out_buffer_ok = true) (h3 : 0 ≤ w.fd)
    (h4 : w.rc1 < 0) : transfers (run_trace fw_size out_size d1 d2 w) = [d1] := by
  unfold run_trace
  rw [if_neg (by simp [h1]), if_neg (by simp [h2]), if_neg (by omega), if_pos h4]
  rfl

theorem fw_buffer_size_words (secs : List xheep_firmware_fw_section_t) :
    ((hello_xheep.init_parameters secs).fw_buffer_size / 4) % 2 ^ 32
      = (hello_xheep.init_parameters secs).fw_buffer_size / 4 := by
  have h := max_end_lt secs
  rw [fw_buffer_size_eq]
  apply Nat.mod_eq_of_lt
  omega

theorem hello_main_fatal (secs : List xheep_firmware_fw_section_t) (w : World)
    (h : ¬ all_succeed w) :
    (hello_xheep.main secs w).exit_code = 1 ∧ (hello_xheep.main secs w).errors = 0
      ∧ (hello_xheep.main secs w).report = none := by
  unfold all_succeed at h
  unfold hello_xheep.main
  simp only []
  split_ifs <;> simp_all

theorem cnn_main_fatal (secs : List xheep_firmware_fw_section_t) (w : World)
    (h : ¬ all_succeed w) :
    (SeizDetCNN_xheep.main secs w).exit_code = 1 ∧ (SeizDetCNN_xheep.main secs w).errors = 0
      ∧ (SeizDetCNN_xheep.main secs w).report = none := by
  unfold all_succeed at h
  unfold SeizDetCNN_xheep.main
  simp only []
  split_ifs <;> simp_all

theorem hello_main_completes (secs : List xheep_firmware_fw_section_t) (w : World)
    (h : all_succeed w) :
    (hello_xheep.main secs w).errors
        = (if hello_xheep.contains_str
              (bytes_from w.out_buffer XHEEP_SHARED_STR_ADDR
                (hello_xheep.init_parameters secs).out_buffer_size)
              hello_xheep.expected_str = false then 1 else 0)
      ∧ (hello_xheep.main secs w).exit_code = (hello_xheep.main secs w).errors := by
  obtain ⟨h1, h2, h3, h4, h5⟩ := h
  unfold hello_xheep.main
  simp only []
  rw [if_neg (by simp [h1]), if_neg (by simp [h2]), if_neg (by omega), if_neg (by omega),
    if_neg (by omega)]
  simp

theorem cnn_main_completes (secs : List xheep_firmware_fw_section_t) (w : World)
    (h : all_succeed w) :
    (SeizDetCNN_xheep.main secs w).errors
        = (if load32 w.out_buffer XHEEP_SHARED_RES_ADDR > 1 then 1 else 0)
      ∧ (SeizDetCNN_xheep.main secs w).exit_code = (SeizDetCNN_xheep.main secs w).errors := by
  obtain ⟨h1, h2, h3, h4, h5⟩ := h
  unfold SeizDetCNN_xheep.main
  simp only []
  rw [if_neg (by simp [h1]), if_neg (by simp [h2]), if_neg (by omega), if_neg (by omega),
    if_neg (by omega)]
  simp

/-! ## Result words -/

theorem load32_lt (m : Mem) (off : Nat) : load32 m off < 2 ^ 32 := by
  unfold load32
  have h0 := Nat.mod_lt (m off) (by norm_num : 256 > 0)
  have h1 := Nat.mod_lt (m (off + 1)) (by norm_num : 256 > 0)
  have h2 := Nat.mod_lt (m (off + 2)) (by norm_num : 256 > 0)
  have h3 := Nat.mod_lt (m (off + 3)) (by norm_num : 256 > 0)
  norm_num
  omega

theorem load32_store32_same (m : Mem) (off v : Nat) :
    load32 (store32 m off v) off = v % 2 ^ 32 := by
  unfold load32 store32
  have c0 : off ≤ off ∧ off < off + 4 := ⟨le_refl _, by omega⟩
  have c1 : off ≤ off + 1 ∧ off + 1 < off + 4 := ⟨by omega, by omega⟩
  have c2 : off ≤ off + 2 ∧ off + 2 < off + 4 := ⟨by omega, by omega⟩
  have c3 : off ≤ off + 3 ∧ off + 3 < off + 4 := ⟨by omega, by omega⟩
  have e0 : off - off = 0 := by omega
  have e1 : off + 1 - off = 1 := by omega
  have e2 : off + 2 - off = 2 := by omega
  have e3 : off + 3 - off = 3 := by omega
  rw [if_pos c0, if_pos c1, if_pos c2, if_pos c3, e0, e1, e2, e3]
  norm_num
  omega

theorem load32_store32_other (m : Mem) (off off2 v : Nat)
    (h : off + 4 ≤ off2 ∨ off2 + 4 ≤ off) :
    load32 (store32 m off2 v) off = load32 m off := by
  unfold load32 store32
  rw [if_neg (by omega), if_neg (by omega), if_neg (by omega), if_neg (by omega)]

theorem to_int32_range (x : Nat) :
    -(2 : Int) ^ 31 ≤ to_int32 x ∧ to_int32 x < 2 ^ 31 := by
  unfold to_int32
  have h := Nat.mod_lt x (by norm_num : 2 ^ 32 > 0)
  split_ifs with c
  · constructor
    · have : (0 : Int) ≤ ((x % 2 ^ 32 : Nat) : Int) := Int.ofNat_nonneg _
      omega
    · exact_mod_cast c
  · constructor
    · have : (2 : Int) ^ 31 ≤ ((x % 2 ^ 32 : Nat) : Int) := by
        have c2 : 2 ^ 31 ≤ x % 2 ^ 32 := by omega
        exact_mod_cast c2
      omega
    · have : ((x % 2 ^ 32 : Nat) : Int) < 2 ^ 32 := by exact_mod_cast h
      omega

theorem to_int32_emod (x : Nat) (hx : x < 2 ^ 32) : to_int32 x % 2 ^ 32 = (x : Int) := by
  unfold to_int32
  rw [Nat.mod_eq_of_lt hx]
  split_ifs with c
  · apply Int.emod_eq_of_lt (Int.ofNat_nonneg _)
    exact_mod_cast hx
  · have c2 : (2 : Int) ^ 31 ≤ (x : Int) := by
      have : 2 ^ 31 ≤ x := by omega
      exact_mod_cast this
    have hx2 : (x : Int) < 2 ^ 32 := by exact_mod_cast hx
    omega

theorem cnn_main_report (secs : List xheep_firmware_fw_section_t) (w : World)
    (h : all_succeed w) :
    (SeizDetCNN_xheep.main secs w).report
      = some (Report.results (load32 w.out_buffer XHEEP_SHARED_RES_ADDR)
          (if load32 w.out_buffer XHEEP_SHARED_RES_ADDR ≠ 0 then "Seizure" else "Normal")
          (load32 w.out_buffer (XHEEP_SHARED_RES_ADDR + 4))
          (to_int32 (load32 w.out_buffer (XHEEP_SHARED_RES_ADDR + 8)))
          (to_int32 (load32 w.out_buffer (XHEEP_SHARED_RES_ADDR + 12)))) := by
  obtain ⟨h1, h2, h3, h4, h5⟩ := h
  unfold SeizDetCNN_xheep.main
  simp only []
  rw [if_neg (by simp [h1]), if_neg (by simp [h2]), if_neg (by omega), if_neg (by omega),
    if_neg (by omega)]

theorem world_with_results_succeeds (w0 w1 w2 w3 : Nat) :
    all_succeed (world_with_results w0 w1 w2 w3) :=
  ⟨rfl, rfl, show (0 : Int) ≤ 3 by decide, show (0 : Int) ≤ 0 by decide,
    show (0 : Int) ≤ 0 by decide⟩

theorem world_with_results_words (w0 w1 w2 w3 : Nat) :
    load32 (world_with_results w0 w1 w2 w3).out_buffer XHEEP_SHARED_RES_ADDR = w0 % 2 ^ 32
      ∧ load32 (world_with_results w0 w1 w2 w3).out_buffer (XHEEP_SHARED_RES_ADDR + 4)
        = w1 % 2 ^ 32
      ∧ load32 (world_with_results w0 w1 w2 w3).out_buffer (XHEEP_SHARED_RES_ADDR + 8)
        = w2 % 2 ^ 32
      ∧ load32 (world_with_results w0 w1 w2 w3).out_buffer (XHEEP_SHARED_RES_ADDR + 12)
        = w3 % 2 ^ 32 := by
  unfold world_with_results
  simp only []
  refine ⟨?_, ?_, ?_, ?_⟩
  · rw [load32_store32_other _ _ _ _ (by omega), load32_store32_other _ _ _ _ (by omega),
      load32_store32_other _ _ _ _ (by omega), load32_store32_same]
  · rw [load32_store32_other _ _ _ _ (by omega), load32_store32_other _ _ _ _ (by omega),
      load32_store32_same]
  · rw [load32_store32_other _ _ _ _ (by omega), load32_store32_same]
  · rw [load32_store32_same]

/-! ## The section loop with its output -/

theorem logged_loop_fst (n : Nat) (secs : List xheep_firmware_fw_section_t) (k : Nat)
    (m : Mem) (log : List LogLine) :
    ((secs.enumFrom k).foldl
      (fun st e =>
        if section_end e.2 > n then (st.1, st.2 ++ [LogLine.warn e.1])
        else (memcpy st.1 e.2.addr e.2.data e.2.size, st.2 ++ [LogLine.copied e.1]))
      (m, log)).1
      = secs.foldl (fun buffer s =>
          if section_end s > n then buffer else memcpy buffer s.addr s.data s.size) m := by
  induction secs generalizing k m log with
  | nil => rfl
  | cons a t ih =>
    rw [List.enumFrom_cons, List.foldl_cons, List.foldl_cons]
    by_cases hg : section_end a > n
    · simp only [hg, if_true]; exact ih _ _ _
    · simp only [hg, if_false]; exact ih _ _ _

theorem logged_loop_all_copied (n : Nat) (secs : List xheep_firmware_fw_section_t) (k : Nat)
    (m : Mem) (log : List LogLine) (h : ∀ s ∈ secs, ¬ section_end s > n) :
    (secs.enumFrom k).foldl
      (fun st e =>
        if section_end e.2 > n then (st.1, st.2 ++ [LogLine.warn e.1])
        else (memcpy st.1 e.2.addr e.2.data e.2.size, st.2 ++ [LogLine.copied e.1]))
      (m, log)
      = (secs.foldl (fun buffer s => memcpy buffer s.addr s.data s.size) m,
         log ++ (List.range' k secs.length).map LogLine.copied) := by
  induction secs generalizing k m log with
  | nil => simp
  | cons a t ih =>
    have ha := h a (List.mem_cons_self _ _)
    rw [List.enumFrom_cons, List.foldl_cons, List.foldl_cons]
    simp only [ha, if_false]
    rw [ih _ _ _ (fun s hs => h s (List.mem_cons_of_mem _ hs))]
    simp [List.range'_succ]

theorem guard_false_at_computed_size (secs : List xheep_firmware_fw_section_t) :
    ∀ s ∈ secs, ¬ section_end s > (hello_xheep.init_parameters secs).fw_buffer_size := by
  intro s hs
  have h := le_max_end hs
  rw [fw_buffer_size_eq]
  omega

/-! ## `contains_str` -/

theorem c_string_nil : c_string [] = [] := rfl

theorem c_string_cons_zero (p : List Nat) : c_string (0 :: p) = [] := by
  simp [c_string]

theorem c_string_cons_ne (c : Nat) (p : List Nat) (h : c ≠ 0) :
    c_string (c :: p) = c :: c_string p := by
  simp [c_string, List.takeWhile_cons, h]

theorem c_string_eq_nil_iff (p : List Nat) : c_string p = [] ↔ deref p = 0 := by
  cases p with
  | nil => simp [c_string, deref]
  | cons c t =>
    by_cases h : c = 0
    · subst h; simp [c_string_cons_zero, deref]
    · simp [c_string_cons_ne c t h, deref, h]

theorem c_string_append_zero (text rest : List Nat) (h : ∀ c ∈ text, c ≠ 0) :
    c_string (text ++ 0 :: rest) = text := by
  induction text with
  | nil => exact c_string_cons_zero rest
  | cons a t ih =>
    rw [List.cons_append, c_string_cons_ne a _ (h a (List.mem_cons_self _ _)),
      ih (fun c hc => h c (List.mem_cons_of_mem _ hc))]

theorem c_string_of_no_zero (text : List Nat) (h : ∀ c ∈ text, c ≠ 0) :
    c_string text = text := by
  induction text with
  | nil => rfl
  | cons a t ih =>
    rw [c_string_cons_ne a _ (h a (List.mem_cons_self _ _)),
      ih (fun c hc => h c (List.mem_cons_of_mem _ hc))]

theorem match_run_deref (h n : List Nat) :
    deref (hello_xheep.match_run h n) = 0 ↔ c_string n <+: c_string h := by
  induction h generalizing n with
  | nil =>
    rw [hello_xheep.match_run.eq_def]
    simp only [c_string_nil, List.prefix_nil]
    cases n <;> simp [c_string_eq_nil_iff]
  | cons a t ih =>
    cases n with
    | nil => simp [hello_xheep.match_run, deref, c_string]
    | cons x ns =>
      rw [hello_xheep.match_run]
      by_cases hc : a ≠ 0 ∧ x ≠ 0 ∧ a = x
      · rw [if_pos hc]
        obtain ⟨ha, hx, rfl⟩ := hc
        rw [c_string_cons_ne a ns ha, c_string_cons_ne a t ha, List.cons_prefix_cons, ih]
        simp
      · rw [if_neg hc]
        by_cases hx : x = 0
        · subst hx; simp [deref, c_string_cons_zero]
        · rw [c_string_cons_ne x ns hx]
          by_cases ha : a = 0
          · subst ha; simp [deref, c_string_cons_zero, hx]
          · rw [c_string_cons_ne a t ha, List.cons_prefix_cons]
            have hne : a ≠ x := fun e => hc ⟨ha, hx, e⟩
            simp [deref, hx, Ne.symm hne]

theorem scan_iff (h n : List Nat) (hn : deref n ≠ 0) :
    hello_xheep.scan h n = true ↔ c_string n <:+: c_string h := by
  have hne : c_string n ≠ [] := fun e => hn ((c_string_eq_nil_iff n).mp e)
  induction h with
  | nil => simp [hello_xheep.scan, c_string_nil, hne]
  | cons c t ih =>
    rw [hello_xheep.scan]
    by_cases hc : c = 0
    · subst hc; simp [c_string_cons_zero, hne]
    · rw [if_neg hc, c_string_cons_ne c t hc, List.infix_cons_iff, ← c_string_cons_ne c t hc,
        ← match_run_deref]
      by_cases hd : c ≠ deref n
      · rw [if_pos hd]
        have hm : ¬ deref (hello_xheep.match_run (c :: t) n) = 0 := by
          rw [match_run_deref, c_string_cons_ne c t hc]
          intro hp
          cases n with
          | nil => exact hn rfl
          | cons x ns =>
            have hx : x ≠ 0 := hn
            rw [c_string_cons_ne x ns hx, List.cons_prefix_cons] at hp
            exact hd hp.1.symm
        exact ih.trans ⟨Or.inr, fun o => o.resolve_left hm⟩
      · rw [if_neg hd]
        by_cases hm : deref (hello_xheep.match_run (c :: t) n) = 0
        · simp [hm]
        · rw [if_neg hm]
          exact ih.trans ⟨Or.inr, fun o => o.resolve_left hm⟩

theorem contains_str_iff (h n : List Nat) :
    hello_xheep.contains_str h n = true ↔ c_string n <:+: c_string h := by
  unfold hello_xheep.contains_str
  by_cases hn : deref n = 0
  · rw [if_pos hn, (c_string_eq_nil_iff n).mpr hn]
    simp
  · rw [if_neg hn]; exact scan_iff h n hn

/-! ## The hello firmware and its host -/

theorem store_loop_beyond (v : Nat → Nat) (n : Nat) (m : Mem) (k : Nat) (hk : 4 * n ≤ k) :
    (List.range n).foldl (fun esp_string i => store32 esp_string (4 * i) (v i)) m k = m k := by
  induction n with
  | zero => rfl
  | succ n ih =>
    rw [List.range_succ, List.foldl_append, List.foldl_cons, List.foldl_nil]
    have hc : ¬ (4 * n ≤ k ∧ k < 4 * n + 4) := by omega
    simp only [store32, if_neg hc]
    exact ih (by omega)

theorem firmware_main_written (m : Mem) (k : Nat) (h : k < 32) :
    esp_app_native.main m k = esp_app_native.xheep_native_msg.getD k 0 := by
  interval_cases k <;> rfl

theorem firmware_main_beyond (m : Mem) (k : Nat) (h : 32 ≤ k) :
    esp_app_native.main m k = m k := by
  have hn : (esp_app_native.num_words + 2 ^ 32 - 1) % 2 ^ 32 = 7 := by decide
  unfold esp_app_native.main
  simp only [hn]
  have hc : ¬ (4 * 7 ≤ k ∧ k < 4 * 7 + 4) := by omega
  simp only [store32, if_neg hc]
  exact store_loop_beyond _ 7 m k (by omega)

theorem hello_main_report (secs : List xheep_firmware_fw_section_t) (w : World)
    (h : all_succeed w) :
    (hello_xheep.main secs w).report
      = some (Report.message (c_string (bytes_from w.out_buffer XHEEP_SHARED_STR_ADDR
          (hello_xheep.init_parameters secs).out_buffer_size))) := by
  obtain ⟨h1, h2, h3, h4, h5⟩ := h
  unfold hello_xheep.main
  simp only []
  rw [if_neg (by simp [h1]), if_neg (by simp [h2]), if_neg (by omega), if_neg (by omega),
    if_neg (by omega)]

theorem hello_out_buffer_size (secs : List xheep_firmware_fw_section_t) :
    (hello_xheep.init_parameters secs).out_buffer_size = 0xFA80 := by
  show align_up_8 ((XHEEP_SHARED_STR_ADDR + XHEEP_SHARED_STR_MAX) % 2 ^ 32) = 0xFA80
  decide

theorem shared_str_bytes (m : Mem)
    (hm : ∀ k, k < 32 → m (0xFA00 + k) = esp_app_native.xheep_native_msg.getD k 0) :
    bytes_from m XHEEP_SHARED_STR_ADDR 0xFA80
      = "Hello from X-Heep Native tile!\n".toList.map Char.toNat
          ++ 0 :: (List.range' 32 96).map (fun k => m (0xFA00 + k)) := by
  have hsplit : List.range 128 = List.range' 0 32 ++ List.range' 32 96 := by
    rw [List.range_eq_range', List.range'_append_1]
  have hfirst : (List.range' 0 32).map (fun k => m (0xFA00 + k))
      = esp_app_native.xheep_native_msg := by
    have hc : (List.range' 0 32).map (fun k => m (0xFA00 + k))
        = (List.range' 0 32).map (fun k => esp_app_native.xheep_native_msg.getD k 0) := by
      apply List.map_congr_left
      intro k hk
      have hk2 : k < 32 := by
        have := (List.mem_range'_1.mp hk).2
        omega
      exact hm k hk2
    rw [hc]
    decide
  show (List.range (0xFA80 - 0xFA00)).map (fun k => m (0xFA00 + k)) = _
  have h128 : 0xFA80 - 0xFA00 = 128 := by norm_num
  rw [h128, hsplit, List.map_append, hfirst]
  show ("Hello from X-Heep Native tile!\n".toList.map Char.toNat ++ [0]) ++ _ = _
  rw [List.append_assoc]
  rfl

theorem hello_text_found (rest : List Nat) :
    hello_xheep.contains_str
        ("Hello from X-Heep Native tile!\n".toList.map Char.toNat ++ 0 :: rest)
        hello_xheep.expected_str = true
      ∧ c_string ("Hello from X-Heep Native tile!\n".toList.map Char.toNat ++ 0 :: rest)
        = "Hello from X-Heep Native tile!\n".toList.map Char.toNat := by
  have hz : ∀ c ∈ "Hello from X-Heep Native tile!\n".toList.map Char.toNat, c ≠ 0 := by decide
  have hz2 : ∀ c ∈ hello_xheep.expected_str, c ≠ 0 := by decide
  have hc := c_string_append_zero _ rest hz
  refine ⟨?_, hc⟩
  rw [contains_str_iff, hc, c_string_of_no_zero _ hz2]
  exact ⟨[], [33, 10], by decide⟩

/-! ## The section loop on tables whose sums do not wrap -/

/-- The size computation in terms of the sum the code evaluates: for every table the
firmware buffer size of both applications is the largest `section_end` rounded up to a
multiple of 8 (0 for the empty table); for a table whose exact sums `addr + size` all
stay below `2^32` it is the least multiple of 8 at or above every exact sum. -/
theorem fw_buffer_size_rounded_max (secs : List xheep_firmware_fw_section_t) :
    (SeizDetCNN_xheep.init_parameters secs).fw_buffer_size
        = (hello_xheep.init_parameters secs).fw_buffer_size
      ∧ (hello_xheep.init_parameters secs).fw_buffer_size = 8 * ((max_end secs + 7) / 8)
      ∧ 8 ∣ (hello_xheep.init_parameters secs).fw_buffer_size
      ∧ (∀ s ∈ secs, section_end s ≤ (hello_xheep.init_parameters secs).fw_buffer_size)
      ∧ (∀ m, 8 ∣ m → (∀ s ∈ secs, section_end s ≤ m) →
          (hello_xheep.init_parameters secs).fw_buffer_size ≤ m)
      ∧ (hello_xheep.init_parameters []).fw_buffer_size = 0
      ∧ ((∀ s ∈ secs, s.addr + s.size < 2 ^ 32) →
          (hello_xheep.init_parameters secs).fw_buffer_size
              = 8 * ((max_addr_plus_size secs + 7) / 8)
            ∧ (∀ s ∈ secs,
                s.addr + s.size ≤ (hello_xheep.init_parameters secs).fw_buffer_size)
            ∧ (∀ m, 8 ∣ m → (∀ s ∈ secs, s.addr + s.size ≤ m) →
                (hello_xheep.init_parameters secs).fw_buffer_size ≤ m)) := by
  have hr := fw_buffer_size_eq secs
  have hleast : ∀ m, 8 ∣ m → (∀ s ∈ secs, section_end s ≤ m) →
      (hello_xheep.init_parameters secs).fw_buffer_size ≤ m := by
    intro m hm hall
    have := max_end_le hall
    rw [hr]
    obtain ⟨k, rfl⟩ := hm
    omega
  refine ⟨rfl, hr, ?_, ?_, hleast, ?_, ?_⟩
  · rw [hr]; exact Dvd.intro _ rfl
  · intro s hs
    have := le_max_end hs
    rw [hr]; omega
  · rw [fw_buffer_size_eq]; simp [max_end]
  · intro hno
    refine ⟨?_, ?_, ?_⟩
    · rw [hr, max_end_exact secs hno]
    · intro s hs
      have := le_max_end hs
      rw [section_end_exact s (hno s hs)] at this
      rw [hr]; omega
    · intro m hm hall
      exact hleast m hm (fun s hs => le_trans (section_end_le s) (hall s hs))

/-- Table order among the copied entries: if entry `j` passes the bounds check and
covers a byte, and no later entry both passes the check and covers it, the image holds
the payload byte of entry `j` there. -/
theorem last_guard_passing_entry_wins (secs : List xheep_firmware_fw_section_t)
    (buffer : Mem) (buffer_size i j : Nat) (hj : j < secs.length)
    (hfit : secs[j].addr + secs[j].size ≤ buffer_size ∨ section_end secs[j] ≤ buffer_size)
    (hcov : covers secs[j] i)
    (hlast : ∀ j2 (hj2 : j2 < secs.length), j < j2 →
      ¬ (section_end secs[j2] ≤ buffer_size ∧ covers secs[j2] i)) :
    hello_xheep.flatten_firmware secs buffer buffer_size i
        = secs[j].data.getD (i - secs[j].addr) 0
      ∧ SeizDetCNN_xheep.flatten_firmware secs buffer buffer_size i
        = secs[j].data.getD (i - secs[j].addr) 0 := by
  have hfit : section_end secs[j] ≤ buffer_size := by
    rcases hfit with h | h
    · exact le_trans (section_end_le _) h
    · exact h
  have h : hello_xheep.flatten_firmware secs buffer buffer_size i
      = secs[j].data.getD (i - secs[j].addr) 0 := by
    rw [flatten_eq_foldl, copy_loop_split buffer_size secs j hj,
      copy_loop_last buffer_size i _ _ secs[j] _ hfit hcov]
    intro t ht hc
    obtain ⟨j2, hj2, hlt, rfl⟩ := mem_drop_succ ht
    exact hlast j2 hj2 hlt hc
  exact ⟨h, h⟩

/-- The skipping branch: an entry for which the bounds check
`section->addr + section->size > buffer_size` is true (in particular one whose exact sum
exceeds the buffer size and is below `2^32`) is left out of the copy; the whole memory
is the one obtained from the table without that entry. -/
theorem guard_failing_entry_skipped (secs : List xheep_firmware_fw_section_t)
    (buffer : Mem) (buffer_size j : Nat) (hj : j < secs.length)
    (hexceeds : section_end secs[j] > buffer_size
      ∨ (secs[j].addr + secs[j].size > buffer_size ∧ secs[j].addr + secs[j].size < 2 ^ 32)) :
    hello_xheep.flatten_firmware secs buffer buffer_size
        = hello_xheep.flatten_firmware (secs.eraseIdx j) buffer buffer_size
      ∧ SeizDetCNN_xheep.flatten_firmware secs buffer buffer_size
        = SeizDetCNN_xheep.flatten_firmware (secs.eraseIdx j) buffer buffer_size
      ∧ hello_xheep.flatten_firmware [secs[j]] buffer buffer_size
        = memset buffer 0 buffer_size
      ∧ SeizDetCNN_xheep.flatten_firmware [secs[j]] buffer buffer_size
        = memset buffer 0 buffer_size := by
  have hexceeds : section_end secs[j] > buffer_size := by
    rcases hexceeds with h | ⟨h, hlt⟩
    · exact h
    · rw [section_end_exact _ hlt]; exact h
  have h : hello_xheep.flatten_firmware secs buffer buffer_size
      = hello_xheep.flatten_firmware (secs.eraseIdx j) buffer buffer_size := by
    rw [flatten_eq_foldl, flatten_eq_foldl, List.eraseIdx_eq_take_drop_succ,
      copy_loop_split buffer_size secs j hj]
    exact copy_loop_skip buffer_size _ _ secs[j] _ hexceeds
  have h1 : hello_xheep.flatten_firmware [secs[j]] buffer buffer_size
      = memset buffer 0 buffer_size := by
    rw [flatten_eq_foldl, List.foldl_cons, List.foldl_nil, if_pos hexceeds]
  exact ⟨h, h, h1, h1⟩

/-! ## Claims -/

/-- C1 (code defect at a failing input): for the one-entry table holding a section at
address `0xFFFFFFFF` of size 2, `init_parameters` of both applications computes a
firmware buffer size of 8, because `section->addr + section->size` is evaluated in 32
bits and wraps to 1.  The largest `addr+size` of the table is 4294967297 and its
round-up to a multiple of 8 is 4294967304, so the computed size is not the one the
claim states and does not reach the end of the section. -/
theorem init_parameters_wrapped_sum_undersizes :
    (hello_xheep.init_parameters [wrapping_section]).fw_buffer_size = 8
      ∧ (SeizDetCNN_xheep.init_parameters [wrapping_section]).fw_buffer_size = 8
      ∧ section_end wrapping_section = 1
      ∧ wrapping_section.addr + wrapping_section.size = 4294967297
      ∧ max_addr_plus_size [wrapping_section] = 4294967297
      ∧ 8 * ((max_addr_plus_size [wrapping_section] + 7) / 8) = 4294967304
      ∧ (hello_xheep.init_parameters [wrapping_section]).fw_buffer_size
          ≠ 8 * ((max_addr_plus_size [wrapping_section] + 7) / 8)
      ∧ ¬ (wrapping_section.addr + wrapping_section.size
          ≤ (hello_xheep.init_parameters [wrapping_section]).fw_buffer_size) := by
  decide

/-- C2: for every section table, every initial buffer content and every buffer size,
after `flatten_firmware(buffer, buffer_size)` (of either application) every byte index
`i < buffer_size` that lies in no section range `[addr, addr+size)` holds zero. -/
theorem flatten_firmware_gap_zero (secs : List xheep_firmware_fw_section_t) (buffer : Mem)
    (buffer_size i : Nat) (hi : i < buffer_size) (hgap : ∀ s ∈ secs, ¬ covers s i) :
    hello_xheep.flatten_firmware secs buffer buffer_size i = 0
      ∧ SeizDetCNN_xheep.flatten_firmware secs buffer buffer_size i = 0 := by
  have h : hello_xheep.flatten_firmware secs buffer buffer_size i = 0 := by
    rw [flatten_eq_foldl,
      copy_loop_untouched buffer_size i secs _ (fun t ht hc => hgap t ht hc.2)]
    simp only [memset, if_pos hi]
  exact ⟨h, h⟩

/-- Witness for C2: byte 5 of an 8-byte buffer holding 0xAA, table covering bytes 0..1. -/
theorem flatten_firmware_gap_zero_witness :
    5 < 8 ∧ (∀ s ∈ [(⟨0, 2, [1, 2]⟩ : xheep_firmware_fw_section_t)], ¬ covers s 5)
      ∧ hello_xheep.flatten_firmware [⟨0, 2, [1, 2]⟩] (fun _ => 0xAA) 8 5 = 0 :=
  ⟨by decide, by decide,
   (flatten_firmware_gap_zero [⟨0, 2, [1, 2]⟩] (fun _ => 0xAA) 8 5
      (by decide) (by decide)).1⟩

/-- C3: for every section table and buffer size, a section (entry `j` of the table) that
passes the bounds check, which it does whenever `addr+size <= buffer_size`, and whose
range no later section of the table overlaps, appears verbatim in the flattened image
(of either application): `buffer[addr + k] == data[k]` for every `k < size`. -/
theorem flatten_firmware_section_verbatim (secs : List xheep_firmware_fw_section_t)
    (buffer : Mem) (buffer_size j : Nat) (hj : j < secs.length)
    (hfit : secs[j].addr + secs[j].size ≤ buffer_size ∨ section_end secs[j] ≤ buffer_size)
    (hlater : ∀ j2 (hj2 : j2 < secs.length), j < j2 →
      ∀ x, covers secs[j] x → ¬ covers secs[j2] x)
    (k : Nat) (hk : k < secs[j].size) :
    hello_xheep.flatten_firmware secs buffer buffer_size (secs[j].addr + k)
        = secs[j].data.getD k 0
      ∧ SeizDetCNN_xheep.flatten_firmware secs buffer buffer_size (secs[j].addr + k)
        = secs[j].data.getD k 0 := by
  have hfit2 : section_end secs[j] ≤ buffer_size := by
    rcases hfit with h | h
    · exact le_trans (section_end_le _) h
    · exact h
  have hcov : covers secs[j] (secs[j].addr + k) := ⟨by omega, by omega⟩
  have h : hello_xheep.flatten_firmware secs buffer buffer_size (secs[j].addr + k)
      = secs[j].data.getD k 0 := by
    rw [flatten_eq_foldl, copy_loop_split buffer_size secs j hj,
      copy_loop_last buffer_size (secs[j].addr + k) _ _ secs[j] _ hfit2 hcov]
    · congr 1; omega
    · intro t ht hc
      obtain ⟨j2, hj2, hlt, rfl⟩ := mem_drop_succ ht
      exact hlater j2 hj2 hlt _ hcov hc.2
  exact ⟨h, h⟩

/-- Witness for C3: the first entry of a two-entry table without overlap, byte 2. -/
theorem flatten_firmware_section_verbatim_witness :
    hello_xheep.flatten_firmware
        [⟨0, 4, [1, 2, 3, 4]⟩, ⟨8, 2, [5, 6]⟩] (fun _ => 0xAA) 16 2 = 3 :=
  (flatten_firmware_section_verbatim
    [⟨0, 4, [1, 2, 3, 4]⟩, ⟨8, 2, [5, 6]⟩] (fun _ => 0xAA) 16 0
    (by decide) (Or.inl (by decide))
    (by
      intro j2 hj2 hlt x hx hc
      have h1 : j2 = 1 := by simp at hj2; omega
      subst h1
      simp [covers] at hx hc
      omega)
    2 (by decide)).1

/-- C4 (code defect at a failing input): in the two-entry table `overlapping_table`
with the buffer size `init_parameters` computes for it (`0xFFFFFFF8`), both entries
cover byte `0xFFFFFFF1`; the first fits in the buffer, the second does not (its end is
`2^32 + 0x10`), yet its 32-bit sum `0x10` passes the bounds check and it is copied: the
image holds its payload byte 9 there, not the byte 2 of the last covering section that
fits.  The same happens in an 8-byte buffer at byte 3 for the entries (0, 4) and
(2, 0xFFFFFFFF): the image holds 8, not 4. -/
theorem flatten_firmware_wrapped_entry_overwrites :
    (hello_xheep.init_parameters overlapping_table).fw_buffer_size = 0xFFFFFFF8
      ∧ (∀ s ∈ overlapping_table, covers s 0xFFFFFFF1)
      ∧ (0xFFFFFFF0 : Nat) + 4 ≤ 0xFFFFFFF8
      ∧ ¬ ((0xFFFFFFF0 : Nat) + 0x20 ≤ 0xFFFFFFF8)
      ∧ overlapping_table.map section_end = [0xFFFFFFF4, 0x10]
      ∧ hello_xheep.flatten_firmware overlapping_table (fun _ => 0) 0xFFFFFFF8 0xFFFFFFF1 = 9
      ∧ SeizDetCNN_xheep.flatten_firmware overlapping_table (fun _ => 0) 0xFFFFFFF8 0xFFFFFFF1
          = 9
      ∧ hello_xheep.flatten_firmware [⟨0xFFFFFFF0, 4, [1, 2, 3, 4]⟩] (fun _ => 0) 0xFFFFFFF8
          0xFFFFFFF1 = 2
      ∧ hello_xheep.flatten_firmware
          [⟨0, 4, [1, 2, 3, 4]⟩, ⟨2, 0xFFFFFFFF, [9, 8, 7]⟩] (fun _ => 0) 8 3 = 8 := by
  decide

/-- C5 (code defect at a failing input): the section at address `0xFFFFFFFF` of size 2
exceeds an 8-byte buffer (its end is 4294967297), but the bounds check compares the
32-bit sum 1 with 8 and does not skip it: `flatten_firmware` of both applications
copies its two payload bytes to offsets `0xFFFFFFFF` and `0x100000000`, far beyond the
buffer, and reports the section as copied.  The resulting memory differs from the one
obtained from the table with that section removed, which leaves those bytes alone. -/
theorem flatten_firmware_wrapped_entry_copied :
    wrapping_section.addr + wrapping_section.size > 8
      ∧ section_end wrapping_section = 1
      ∧ hello_xheep.flatten_firmware [wrapping_section] (fun _ => 0) 8 0xFFFFFFFF = 17
      ∧ hello_xheep.flatten_firmware [wrapping_section] (fun _ => 0) 8 0x100000000 = 34
      ∧ SeizDetCNN_xheep.flatten_firmware [wrapping_section] (fun _ => 0) 8 0xFFFFFFFF = 17
      ∧ SeizDetCNN_xheep.flatten_firmware [wrapping_section] (fun _ => 0) 8 0x100000000 = 34
      ∧ hello_xheep.flatten_firmware ([wrapping_section].eraseIdx 0) (fun _ => 0) 8
          0xFFFFFFFF = 0
      ∧ hello_xheep.flatten_firmware ([wrapping_section].eraseIdx 0) (fun _ => 0) 8
          0x100000000 = 0
      ∧ (hello_xheep.flatten_firmware_logged [wrapping_section] (fun _ => 0) 8).2
          = [LogLine.copied 0]
      ∧ hello_xheep.flatten_firmware [wrapping_section] (fun _ => 0) 8
          ≠ hello_xheep.flatten_firmware ([wrapping_section].eraseIdx 0) (fun _ => 0) 8 := by
  refine ⟨by decide, by decide, by decide, by decide, by decide, by decide, by decide,
    by decide, by decide, ?_⟩
  intro h
  have h1 := congrFun h 0xFFFFFFFF
  revert h1
  decide

/-- C6: in both host applications, for every section table and every combination of
allocation, device-open and transfer outcomes, a BOOT_EXECUTE (phase 2) transfer is
issued only after a CODE_FETCH (phase 1) transfer that returned success, and no
transfer at all follows a CODE_FETCH transfer that failed: when the CODE_FETCH `ioctl`
returns a negative value, the CODE_FETCH descriptor is the only one ever issued. -/
theorem main_boot_only_after_fetch (secs : List xheep_firmware_fw_section_t) (w : World) :
    boot_only_after_fetch (hello_xheep.main secs w).trace
      ∧ boot_only_after_fetch (SeizDetCNN_xheep.main secs w).trace
      ∧ (w.fw_buffer_ok = true → w.out_buffer_ok = true → 0 ≤ w.fd → w.rc1 < 0 →
          transfers (hello_xheep.main secs w).trace
              = [hello_xheep.desc_phase1 (hello_xheep.init_parameters secs).fw_buffer_size]
            ∧ transfers (SeizDetCNN_xheep.main secs w).trace
              = [SeizDetCNN_xheep.desc_phase1
                  (SeizDetCNN_xheep.init_parameters secs).fw_buffer_size]) := by
  refine ⟨?_, ?_, fun h1 h2 h3 h4 => ⟨?_, ?_⟩⟩
  · rw [hello_main_trace]
    exact run_trace_boot_only_after_fetch _ _ _ _ w ⟨rfl, rfl⟩ ⟨rfl, rfl⟩
  · rw [cnn_main_trace]
    exact run_trace_boot_only_after_fetch _ _ _ _ w ⟨rfl, rfl⟩ ⟨rfl, rfl⟩
  · rw [hello_main_trace]; exact run_trace_fetch_fails _ _ _ _ w h1 h2 h3 h4
  · rw [cnn_main_trace]; exact run_trace_fetch_fails _ _ _ _ w h1 h2 h3 h4

/-- Witness for C6: a run of the hello application whose CODE_FETCH `ioctl` returns -1
issues that one descriptor and no BOOT_EXECUTE descriptor. -/
theorem main_boot_only_after_fetch_witness :
    world_fetch_fails.rc1 < 0
      ∧ (transfers (hello_xheep.main [] world_fetch_fails).trace).map
          (fun d => (d.boot_fetch_code, d.boot_exit_loop)) = [(1, 0)] :=
  ⟨by decide,
   by rw [((main_boot_only_after_fetch [] world_fetch_fails).2.2
        (by decide) (by decide) (by decide) (by decide)).1]; rfl⟩

/-- C7: in every run of either host application (every section table, every outcome of
the allocations, of `open` and of the two transfers), each buffer is freed exactly once
if its allocation succeeded and never otherwise, and the device is closed exactly once
if `open` succeeded and never otherwise.  Path by path, the numbers of frees of the
firmware buffer, frees of the output buffer and closes are: (0, 0, 0) when the first
allocation fails, (1, 0, 0) when the second fails, (1, 1, 0) when `open` fails, and
(1, 1, 1) once the device is open, whether phase 1 fails, phase 2 fails or the run
completes. -/
theorem main_releases_exactly_once (secs : List xheep_firmware_fw_section_t) (w : World) :
    released_exactly_once (hello_xheep.main secs w).trace
      ∧ released_exactly_once (SeizDetCNN_xheep.main secs w).trace
      ∧ (w.fw_buffer_ok = false →
          release_counts (hello_xheep.main secs w).trace = (0, 0, 0)
            ∧ release_counts (SeizDetCNN_xheep.main secs w).trace = (0, 0, 0))
      ∧ (w.fw_buffer_ok = true → w.out_buffer_ok = false →
          release_counts (hello_xheep.main secs w).trace = (1, 0, 0)
            ∧ release_counts (SeizDetCNN_xheep.main secs w).trace = (1, 0, 0))
      ∧ (w.fw_buffer_ok = true → w.out_buffer_ok = true → w.fd < 0 →
          release_counts (hello_xheep.main secs w).trace = (1, 1, 0)
            ∧ release_counts (SeizDetCNN_xheep.main secs w).trace = (1, 1, 0))
      ∧ (w.fw_buffer_ok = true → w.out_buffer_ok = true → 0 ≤ w.fd →
          release_counts (hello_xheep.main secs w).trace = (1, 1, 1)
            ∧ release_counts (SeizDetCNN_xheep.main secs w).trace = (1, 1, 1)) := by
  rw [hello_main_trace, cnn_main_trace]
  have a := run_trace_release_counts (hello_xheep.init_parameters secs).fw_buffer_size
    (hello_xheep.init_parameters secs).out_buffer_size
    (hello_xheep.desc_phase1 (hello_xheep.init_parameters secs).fw_buffer_size)
    hello_xheep.desc_phase2 w
  have b := run_trace_release_counts (SeizDetCNN_xheep.init_parameters secs).fw_buffer_size
    (SeizDetCNN_xheep.init_parameters secs).out_buffer_size
    (SeizDetCNN_xheep.desc_phase1 (SeizDetCNN_xheep.init_parameters secs).fw_buffer_size)
    SeizDetCNN_xheep.desc_phase2 w
  exact ⟨run_trace_released _ _ _ _ w, run_trace_released _ _ _ _ w,
    fun h1 => ⟨a.1 h1, b.1 h1⟩,
    fun h1 h2 => ⟨a.2.1 h1 h2, b.2.1 h1 h2⟩,
    fun h1 h2 h3 => ⟨a.2.2.1 h1 h2 h3, b.2.2.1 h1 h2 h3⟩,
    fun h1 h2 h3 => ⟨a.2.2.2 h1 h2 h3, b.2.2.2 h1 h2 h3⟩⟩

/-- Witness for C7: on a run of the CNN application whose CODE_FETCH fails, both buffers
are freed once and the device is closed once. -/
theorem main_releases_exactly_once_witness :
    world_fetch_fails.rc1 < 0
      ∧ release_counts (SeizDetCNN_xheep.main [] world_fetch_fails).trace = (1, 1, 1) :=
  ⟨by decide,
   ((main_releases_exactly_once [] world_fetch_fails).2.2.2.2.2
      (by decide) (by decide) (by decide)).2⟩

/-- C8: on a run of either host application in which both allocations, `open` and both
transfers succeed, exactly two descriptors are handed to `ioctl`, in this order: the
CODE_FETCH descriptor bound to the firmware buffer with
`code_size_words = fw_buffer_size / 4`, then the BOOT_EXECUTE descriptor bound to the
output buffer, every other field being as listed. -/
theorem main_transfers (secs : List xheep_firmware_fw_section_t) (w : World)
    (h : all_succeed w) :
    transfers (hello_xheep.main secs w).trace
        = [{ esp := { contig := some contig_handle_t.fw_contig, run := true,
                      coherence := ACC_COH_NONE, p2p_store := 0, p2p_nsrcs := 0 },
             boot_exit_loop := 0, boot_fetch_code := 1, boot_fetch_code_addr := 0,
             code_size_words := (hello_xheep.init_parameters secs).fw_buffer_size / 4,
             src_offset := 0, dst_offset := 0 },
           { esp := { contig := some contig_handle_t.out_contig, run := true,
                      coherence := ACC_COH_NONE, p2p_store := 0, p2p_nsrcs := 0 },
             boot_exit_loop := 1, boot_fetch_code := 0, boot_fetch_code_addr := 0,
             code_size_words := 0, src_offset := 0, dst_offset := 0 }]
      ∧ transfers (SeizDetCNN_xheep.main secs w).trace
        = [{ esp := { contig := some contig_handle_t.fw_contig, run := true,
                      coherence := ACC_COH_NONE, p2p_store := 0, p2p_nsrcs := 0 },
             boot_exit_loop := 0, boot_fetch_code := 1, boot_fetch_code_addr := 0,
             code_size_words := (SeizDetCNN_xheep.init_parameters secs).fw_buffer_size / 4,
             src_offset := 0, dst_offset := 0 },
           { esp := { contig := some contig_handle_t.out_contig, run := true,
                      coherence := ACC_COH_NONE, p2p_store := 0, p2p_nsrcs := 0 },
             boot_exit_loop := 1, boot_fetch_code := 0, boot_fetch_code_addr := 0,
             code_size_words := 0, src_offset := 0, dst_offset := 0 }] := by
  have hw := fw_buffer_size_words secs
  constructor
  · rw [hello_main_trace, run_trace_transfers _ _ _ _ w h]
    simp only [hello_xheep.desc_phase1, hello_xheep.desc_phase2, hw]
  · rw [cnn_main_trace, run_trace_transfers _ _ _ _ w h]
    have e : (SeizDetCNN_xheep.init_parameters secs).fw_buffer_size
        = (hello_xheep.init_parameters secs).fw_buffer_size := rfl
    simp only [SeizDetCNN_xheep.desc_phase1, SeizDetCNN_xheep.desc_phase2, e, hw]

/-- Witness for C8: a one-section table of 4 bytes at address 0 (buffer size 8, two
words) on a run where every call succeeds. -/
theorem main_transfers_witness :
    all_succeed (world_with_prediction 1)
      ∧ (transfers (hello_xheep.main [⟨0, 4, [1, 2, 3, 4]⟩] (world_with_prediction 1)).trace).map
          (fun d => (d.esp.contig, d.boot_fetch_code, d.boot_exit_loop, d.code_size_words))
        = [(some contig_handle_t.fw_contig, 1, 0, 2),
           (some contig_handle_t.out_contig, 0, 1, 0)] :=
  ⟨by decide,
   by rw [(main_transfers [⟨0, 4, [1, 2, 3, 4]⟩] (world_with_prediction 1) (by decide)).1]; rfl⟩

/-- C9, as stated, fails: when the first allocation fails, `main` of the hello
application returns 1 while its soft-error counter is still 0. -/
theorem exit_code_differs_from_errors_on_fatal :
    (hello_xheep.main [] world_fw_alloc_fails).exit_code = 1
      ∧ (hello_xheep.main [] world_fw_alloc_fails).errors = 0
      ∧ (hello_xheep.main [] world_fw_alloc_fails).exit_code
        ≠ (hello_xheep.main [] world_fw_alloc_fails).errors := by
  decide

/-- C9, amended: for every run of either host application, the exit code equals the
soft-error count when both allocations, `open` and both transfers succeed; on every
other (fatal) path the exit code is 1 while the soft-error count is 0.  Hence the exit
code is 0 exactly when every step succeeded and no soft error was counted. -/
theorem main_exit_code (secs : List xheep_firmware_fw_section_t) (w : World) :
    (all_succeed w →
        (hello_xheep.main secs w).exit_code = (hello_xheep.main secs w).errors
          ∧ (SeizDetCNN_xheep.main secs w).exit_code = (SeizDetCNN_xheep.main secs w).errors)
      ∧ (¬ all_succeed w →
        (hello_xheep.main secs w).exit_code = 1 ∧ (hello_xheep.main secs w).errors = 0
          ∧ (SeizDetCNN_xheep.main secs w).exit_code = 1
          ∧ (SeizDetCNN_xheep.main secs w).errors = 0)
      ∧ ((hello_xheep.main secs w).exit_code = 0 ↔
          all_succeed w ∧ (hello_xheep.main secs w).errors = 0)
      ∧ ((SeizDetCNN_xheep.main secs w).exit_code = 0 ↔
          all_succeed w ∧ (SeizDetCNN_xheep.main secs w).errors = 0) := by
  refine ⟨fun h => ⟨(hello_main_completes secs w h).2, (cnn_main_completes secs w h).2⟩,
    fun h => ⟨(hello_main_fatal secs w h).1, (hello_main_fatal secs w h).2.1,
      (cnn_main_fatal secs w h).1, (cnn_main_fatal secs w h).2.1⟩, ?_, ?_⟩
  · by_cases h : all_succeed w
    · rw [(hello_main_completes secs w h).2]
      exact ⟨fun e => ⟨h, e⟩, fun e => e.2⟩
    · have h1 := (hello_main_fatal secs w h).1
      constructor
      · intro e; rw [h1] at e; exact absurd e (by decide)
      · intro e; exact absurd e.1 h
  · by_cases h : all_succeed w
    · rw [(cnn_main_completes secs w h).2]
      exact ⟨fun e => ⟨h, e⟩, fun e => e.2⟩
    · have h1 := (cnn_main_fatal secs w h).1
      constructor
      · intro e; rw [h1] at e; exact absurd e (by decide)
      · intro e; exact absurd e.1 h

/-- Witness for C9 amended: a run of the CNN application where every call succeeds and
the prediction is 2 exits with its soft-error count, 1; a run of the hello application
whose CODE_FETCH fails exits with 1 and no soft error. -/
theorem main_exit_code_witness :
    (all_succeed (world_with_prediction 2)
        ∧ (SeizDetCNN_xheep.main [] (world_with_prediction 2)).exit_code
          = (SeizDetCNN_xheep.main [] (world_with_prediction 2)).errors)
      ∧ (¬ all_succeed world_fetch_fails
        ∧ (hello_xheep.main [] world_fetch_fails).exit_code = 1
        ∧ (hello_xheep.main [] world_fetch_fails).errors = 0) :=
  ⟨⟨by decide, ((main_exit_code [] (world_with_prediction 2)).1 (by decide)).2⟩,
   ⟨by decide, ((main_exit_code [] world_fetch_fails).2.1 (by decide)).1,
     ((main_exit_code [] world_fetch_fails).2.1 (by decide)).2.1⟩⟩

/-- C10: in the CNN application, on every run in which both allocations, `open` and both
transfers succeed, whatever the output buffer holds, the soft-error counter ends at 1 if
the prediction word read from the result block is outside `0 <= prediction <= 1` and at
0 otherwise; the run is not aborted: the results are reported, the device is closed,
both buffers are freed, and the exit code is the counter.  In particular prediction 1
gives zero soft errors and prediction 2 gives one. -/
theorem cnn_main_prediction_range (secs : List xheep_firmware_fw_section_t) (w : World)
    (h : all_succeed w) :
    ((SeizDetCNN_xheep.main secs w).errors = 1 ↔
        ¬ (0 ≤ load32 w.out_buffer XHEEP_SHARED_RES_ADDR
            ∧ load32 w.out_buffer XHEEP_SHARED_RES_ADDR ≤ 1))
      ∧ ((SeizDetCNN_xheep.main secs w).errors = 0 ↔
        (0 ≤ load32 w.out_buffer XHEEP_SHARED_RES_ADDR
            ∧ load32 w.out_buffer XHEEP_SHARED_RES_ADDR ≤ 1))
      ∧ (SeizDetCNN_xheep.main secs w).exit_code = (SeizDetCNN_xheep.main secs w).errors
      ∧ (SeizDetCNN_xheep.main secs w).report ≠ none
      ∧ (∃ before, (SeizDetCNN_xheep.main secs w).trace
          = before ++ [Event.close_dev, Event.contig_free contig_handle_t.fw_contig,
                       Event.contig_free contig_handle_t.out_contig])
      ∧ (load32 w.out_buffer XHEEP_SHARED_RES_ADDR = 1 →
          (SeizDetCNN_xheep.main secs w).errors = 0)
      ∧ (load32 w.out_buffer XHEEP_SHARED_RES_ADDR = 2 →
          (SeizDetCNN_xheep.main secs w).errors = 1) := by
  have he := (cnn_main_completes secs w h).1
  have hx := (cnn_main_completes secs w h).2
  have ht : (SeizDetCNN_xheep.main secs w).trace.drop 5
      = [Event.close_dev, Event.contig_free contig_handle_t.fw_contig,
         Event.contig_free contig_handle_t.out_contig] := by
    obtain ⟨h1, h2, h3, h4, h5⟩ := h
    rw [cnn_main_trace]
    unfold run_trace
    rw [if_neg (by simp [h1]), if_neg (by simp [h2]), if_neg (by omega), if_neg (by omega)]
    rfl
  have hrep : (SeizDetCNN_xheep.main secs w).report ≠ none := by
    obtain ⟨h1, h2, h3, h4, h5⟩ := h
    unfold SeizDetCNN_xheep.main
    simp only []
    rw [if_neg (by simp [h1]), if_neg (by simp [h2]), if_neg (by omega), if_neg (by omega),
      if_neg (by omega)]
    simp
  refine ⟨?_, ?_, hx, hrep, ⟨_, (List.take_append_drop 5 _).symm.trans (by rw [ht])⟩, ?_, ?_⟩
  · rw [he]; split_ifs with c
    · exact ⟨fun _ => by omega, fun _ => rfl⟩
    · exact ⟨fun e => absurd e (by decide), fun e => absurd ⟨Nat.zero_le _, by omega⟩ e⟩
  · rw [he]; split_ifs with c
    · exact ⟨fun e => absurd e (by decide), fun e => by omega⟩
    · exact ⟨fun _ => ⟨Nat.zero_le _, by omega⟩, fun _ => rfl⟩
  · intro e; rw [he, e]; rfl
  · intro e; rw [he, e]; rfl

/-- Witness for C10: result blocks starting with prediction 1 and with prediction 2. -/
theorem cnn_main_prediction_range_witness :
    (all_succeed (world_with_prediction 1)
        ∧ load32 (world_with_prediction 1).out_buffer XHEEP_SHARED_RES_ADDR = 1
        ∧ (SeizDetCNN_xheep.main [] (world_with_prediction 1)).errors = 0)
      ∧ (all_succeed (world_with_prediction 2)
        ∧ load32 (world_with_prediction 2).out_buffer XHEEP_SHARED_RES_ADDR = 2
        ∧ (SeizDetCNN_xheep.main [] (world_with_prediction 2)).errors = 1) :=
  ⟨⟨by decide, by decide,
     (cnn_main_prediction_range [] (world_with_prediction 1) (by decide)).2.2.2.2.2.1
       (by decide)⟩,
   ⟨by decide, by decide,
     (cnn_main_prediction_range [] (world_with_prediction 2) (by decide)).2.2.2.2.2.2
       (by decide)⟩⟩

/-- C11: in the CNN application, on every run in which both transfers are reached and
succeed, whatever the output buffer holds, the reader reports the four 32-bit words at
byte offset 0xFA80: word 0 as the unsigned prediction, word 1 as the unsigned cycle
count, words 2 and 3 as the feature outputs read as signed two's-complement 32-bit
values (in `[-2^31, 2^31)` and congruent to the word modulo `2^32`); the label is
"Seizure" for prediction 1 and "Normal" for prediction 0.  For the block prediction 1,
cycles 1234, feature words 5 and 0xFFFFFFFD it reports "Seizure", 1234, 5 and -3, with
no soft error. -/
theorem cnn_main_decodes_result_block (secs : List xheep_firmware_fw_section_t) (w : World)
    (h : all_succeed w) :
    (SeizDetCNN_xheep.main secs w).report
        = some (Report.results (load32 w.out_buffer 0xFA80)
            (if load32 w.out_buffer 0xFA80 ≠ 0 then "Seizure" else "Normal")
            (load32 w.out_buffer (0xFA80 + 4))
            (to_int32 (load32 w.out_buffer (0xFA80 + 8)))
            (to_int32 (load32 w.out_buffer (0xFA80 + 12))))
      ∧ (load32 w.out_buffer 0xFA80 = 1 → ∃ cycles fc1_out0 fc1_out1,
          (SeizDetCNN_xheep.main secs w).report
            = some (Report.results 1 "Seizure" cycles fc1_out0 fc1_out1))
      ∧ (load32 w.out_buffer 0xFA80 = 0 → ∃ cycles fc1_out0 fc1_out1,
          (SeizDetCNN_xheep.main secs w).report
            = some (Report.results 0 "Normal" cycles fc1_out0 fc1_out1))
      ∧ (∀ off, load32 w.out_buffer off < 2 ^ 32
          ∧ -(2 : Int) ^ 31 ≤ to_int32 (load32 w.out_buffer off)
          ∧ to_int32 (load32 w.out_buffer off) < 2 ^ 31
          ∧ to_int32 (load32 w.out_buffer off) % 2 ^ 32 = (load32 w.out_buffer off : Int))
      ∧ (∀ w0 w1 w2 w3, w0 < 2 ^ 32 → w1 < 2 ^ 32 → w2 < 2 ^ 32 → w3 < 2 ^ 32 →
          (SeizDetCNN_xheep.main secs (world_with_results w0 w1 w2 w3)).report
            = some (Report.results w0 (if w0 ≠ 0 then "Seizure" else "Normal") w1
                (to_int32 w2) (to_int32 w3)))
      ∧ (SeizDetCNN_xheep.main secs (world_with_results 1 1234 5 0xFFFFFFFD)).report
          = some (Report.results 1 "Seizure" 1234 5 (-3))
      ∧ (SeizDetCNN_xheep.main secs (world_with_results 1 1234 5 0xFFFFFFFD)).errors = 0 := by
  have hrep := cnn_main_report secs w h
  have haddr : XHEEP_SHARED_RES_ADDR = 0xFA80 := rfl
  rw [haddr] at hrep
  have hgen : ∀ w0 w1 w2 w3, w0 < 2 ^ 32 → w1 < 2 ^ 32 → w2 < 2 ^ 32 → w3 < 2 ^ 32 →
      (SeizDetCNN_xheep.main secs (world_with_results w0 w1 w2 w3)).report
        = some (Report.results w0 (if w0 ≠ 0 then "Seizure" else "Normal") w1
            (to_int32 w2) (to_int32 w3)) := by
    intro w0 w1 w2 w3 h0 h1 h2 h3
    obtain ⟨e0, e1, e2, e3⟩ := world_with_results_words w0 w1 w2 w3
    rw [cnn_main_report secs _ (world_with_results_succeeds w0 w1 w2 w3), e0, e1, e2, e3,
      Nat.mod_eq_of_lt h0,
      Nat.mod_eq_of_lt h1, Nat.mod_eq_of_lt h2, Nat.mod_eq_of_lt h3]
  refine ⟨hrep, ?_, ?_, ?_, hgen, ?_, ?_⟩
  · intro e
    rw [hrep, e]
    exact ⟨_, _, _, rfl⟩
  · intro e
    rw [hrep, e]
    exact ⟨_, _, _, rfl⟩
  · intro off
    exact ⟨load32_lt _ _, (to_int32_range _).1, (to_int32_range _).2,
      to_int32_emod _ (load32_lt _ _)⟩
  · rw [hgen 1 1234 5 0xFFFFFFFD (by norm_num) (by norm_num) (by norm_num) (by norm_num)]
    rfl
  · have he := (cnn_main_completes secs (world_with_results 1 1234 5 0xFFFFFFFD)
      (by decide)).1
    rw [he, (world_with_results_words 1 1234 5 0xFFFFFFFD).1]
    rfl

/-- Witness for C11: the result block 0, 77, 0x80000000, 7 on a run where every call
succeeds is reported as "Normal", 77, -2^31 and 7. -/
theorem cnn_main_decodes_result_block_witness :
    all_succeed (world_with_results 0 77 0x80000000 7)
      ∧ (SeizDetCNN_xheep.main [] (world_with_results 0 77 0x80000000 7)).report
        = some (Report.results 0 "Normal" 77 (-2147483648) 7) :=
  ⟨by decide,
   by rw [(cnn_main_decodes_result_block [] (world_with_results 0 77 0x80000000 7)
        (by decide)).2.2.2.2.1 0 77 0x80000000 7 (by norm_num) (by norm_num) (by norm_num)
        (by norm_num)]; rfl⟩

/-- C15: for every pair of timer counter readings `c0` (taken by `hw_timer_start`) and
`c1` (taken by the following `hw_timer_stop`), 64-bit readings included,
`hw_timer_stop` returns `(c1 - c0) mod 2^32`; hence it returns the exact number of
elapsed cycles `c1 - c0` whenever that is below `2^32`, also when the low 32 bits of
the counter wrap around between the two calls. -/
theorem hw_timer_stop_elapsed (c0 c1 : Nat) :
    ((timer_sdk.hw_timer_stop (timer_sdk.hw_timer_start c0) c1 : Nat) : Int)
        = ((c1 : Int) - (c0 : Int)) % 2 ^ 32
      ∧ (c0 ≤ c1 → c1 - c0 < 2 ^ 32 →
          timer_sdk.hw_timer_stop (timer_sdk.hw_timer_start c0) c1 = c1 - c0)
      ∧ (c0 ≤ c1 → c1 - c0 < 2 ^ 32 → c1 % 2 ^ 32 < c0 % 2 ^ 32 →
          timer_sdk.hw_timer_stop (timer_sdk.hw_timer_start c0) c1 = c1 - c0) := by
  have hnat : c0 ≤ c1 → c1 - c0 < 2 ^ 32 →
      timer_sdk.hw_timer_stop (timer_sdk.hw_timer_start c0) c1 = c1 - c0 := by
    intro hle hlt
    unfold timer_sdk.hw_timer_stop timer_sdk.hw_timer_start timer_sdk.hw_timer_get_cycles
    omega
  refine ⟨?_, hnat, fun hle hlt _ => hnat hle hlt⟩
  unfold timer_sdk.hw_timer_stop timer_sdk.hw_timer_start timer_sdk.hw_timer_get_cycles
  omega

/-- Witness for C15: the low half of the counter wraps between the readings
`0xFFFFFFF0` and `0x100000010`, and 32 elapsed cycles are returned. -/
theorem hw_timer_stop_elapsed_witness :
    (0x100000010 : Nat) % 2 ^ 32 < 0xFFFFFFF0 % 2 ^ 32
      ∧ timer_sdk.hw_timer_stop (timer_sdk.hw_timer_start 0xFFFFFFF0) 0x100000010 = 32 :=
  ⟨by decide,
   (hw_timer_stop_elapsed 0xFFFFFFF0 0x100000010).2.2 (by decide) (by decide) (by decide)⟩

/-- C14: for every section table, when `flatten_firmware` is called with the buffer size
`init_parameters` computes for that same table (as both `main` functions do), the
exceeds-buffer guard is false for every section; the loop prints no warning and one
"copied" line per table entry, in order, and the image is the zero fill followed by
the `memcpy` of every section of the table.  A section whose exact `addr+size` is below
`2^32` is copied inside the buffer. -/
theorem flatten_firmware_copies_every_section (secs : List xheep_firmware_fw_section_t)
    (w : World) :
    (∀ s ∈ secs, ¬ section_end s > (hello_xheep.init_parameters secs).fw_buffer_size)
      ∧ (∀ s ∈ secs, ¬ section_end s > (SeizDetCNN_xheep.init_parameters secs).fw_buffer_size)
      ∧ (hello_xheep.flatten_firmware_logged secs w.fw_buffer
            (hello_xheep.init_parameters secs).fw_buffer_size).2
          = (List.range secs.length).map LogLine.copied
      ∧ (SeizDetCNN_xheep.flatten_firmware_logged secs w.fw_buffer
            (SeizDetCNN_xheep.init_parameters secs).fw_buffer_size).2
          = (List.range secs.length).map LogLine.copied
      ∧ (∀ j, LogLine.warn j ∉ (hello_xheep.flatten_firmware_logged secs w.fw_buffer
            (hello_xheep.init_parameters secs).fw_buffer_size).2)
      ∧ (∀ j, LogLine.warn j ∉ (SeizDetCNN_xheep.flatten_firmware_logged secs w.fw_buffer
            (SeizDetCNN_xheep.init_parameters secs).fw_buffer_size).2)
      ∧ (hello_xheep.flatten_firmware_logged secs w.fw_buffer
            (hello_xheep.init_parameters secs).fw_buffer_size).1
          = hello_xheep.fw_image secs w
      ∧ (SeizDetCNN_xheep.flatten_firmware_logged secs w.fw_buffer
            (SeizDetCNN_xheep.init_parameters secs).fw_buffer_size).1
          = SeizDetCNN_xheep.fw_image secs w
      ∧ hello_xheep.fw_image secs w
          = secs.foldl (fun buffer s => memcpy buffer s.addr s.data s.size)
              (memset w.fw_buffer 0 (hello_xheep.init_parameters secs).fw_buffer_size)
      ∧ SeizDetCNN_xheep.fw_image secs w
          = secs.foldl (fun buffer s => memcpy buffer s.addr s.data s.size)
              (memset w.fw_buffer 0 (SeizDetCNN_xheep.init_parameters secs).fw_buffer_size)
      ∧ (∀ s ∈ secs, s.addr + s.size < 2 ^ 32 →
          s.addr + s.size ≤ (hello_xheep.init_parameters secs).fw_buffer_size) := by
  have hg := guard_false_at_computed_size secs
  have hall : hello_xheep.flatten_firmware_logged secs w.fw_buffer
        (hello_xheep.init_parameters secs).fw_buffer_size
      = (secs.foldl (fun buffer s => memcpy buffer s.addr s.data s.size)
          (memset w.fw_buffer 0 (hello_xheep.init_parameters secs).fw_buffer_size),
         [] ++ (List.range' 0 secs.length).map LogLine.copied) :=
    logged_loop_all_copied (hello_xheep.init_parameters secs).fw_buffer_size secs 0
      (memset w.fw_buffer 0 (hello_xheep.init_parameters secs).fw_buffer_size) [] hg
  have hlog : (hello_xheep.flatten_firmware_logged secs w.fw_buffer
        (hello_xheep.init_parameters secs).fw_buffer_size).2
      = (List.range secs.length).map LogLine.copied := by
    rw [hall, List.range_eq_range', List.nil_append]
  have hfst : (hello_xheep.flatten_firmware_logged secs w.fw_buffer
        (hello_xheep.init_parameters secs).fw_buffer_size).1
      = hello_xheep.fw_image secs w :=
    logged_loop_fst _ secs 0 _ []
  have himg : hello_xheep.fw_image secs w
      = secs.foldl (fun buffer s => memcpy buffer s.addr s.data s.size)
          (memset w.fw_buffer 0 (hello_xheep.init_parameters secs).fw_buffer_size) := by
    rw [← hfst, hall]
  have hnowarn : ∀ j, LogLine.warn j ∉ (hello_xheep.flatten_firmware_logged secs w.fw_buffer
        (hello_xheep.init_parameters secs).fw_buffer_size).2 := by
    intro j hj
    rw [hlog] at hj
    obtain ⟨k, _, hk⟩ := List.mem_map.mp hj
    cases hk
  refine ⟨hg, hg, hlog, hlog, hnowarn, hnowarn, hfst, hfst, himg, himg, ?_⟩
  intro s hs hlt
  have h := le_max_end hs
  rw [section_end_exact s hlt] at h
  rw [fw_buffer_size_eq]
  omega

/-- Witness for C14: a two-entry table with a gap (ends 0x185 and 3, buffer size
0x188); both entries lie inside the buffer and both are reported as copied. -/
theorem flatten_firmware_copies_every_section_witness :
    (hello_xheep.flatten_firmware_logged
        [⟨0x180, 5, [1, 2, 3, 4, 5]⟩, ⟨0, 3, [7, 8, 9]⟩] (fun _ => 0xAA)
        (hello_xheep.init_parameters
          [⟨0x180, 5, [1, 2, 3, 4, 5]⟩, ⟨0, 3, [7, 8, 9]⟩]).fw_buffer_size).2
        = [LogLine.copied 0, LogLine.copied 1]
      ∧ ∀ s ∈ [(⟨0x180, 5, [1, 2, 3, 4, 5]⟩ : xheep_firmware_fw_section_t), ⟨0, 3, [7, 8, 9]⟩],
          s.addr + s.size < 2 ^ 32 →
          s.addr + s.size ≤ (hello_xheep.init_parameters
            [⟨0x180, 5, [1, 2, 3, 4, 5]⟩, ⟨0, 3, [7, 8, 9]⟩]).fw_buffer_size :=
  ⟨(flatten_firmware_copies_every_section
      [⟨0x180, 5, [1, 2, 3, 4, 5]⟩, ⟨0, 3, [7, 8, 9]⟩]
      ⟨true, true, 3, 0, 0, fun _ => 0xAA, fun _ => 0⟩).2.2.1,
   (flatten_firmware_copies_every_section
      [⟨0x180, 5, [1, 2, 3, 4, 5]⟩, ⟨0, 3, [7, 8, 9]⟩]
      ⟨true, true, 3, 0, 0, fun _ => 0xAA, fun _ => 0⟩).2.2.2.2.2.2.2.2.2.2⟩

/-- C13: for all NUL-terminated strings `haystack` and `needle` (any bytes in memory,
the string being the text before the first NUL), `contains_str(haystack, needle)`
returns true if and only if the needle text occurs as a contiguous run inside the
haystack text.  The same is stated for a text without NUL followed by its terminator
and arbitrary further bytes.  In particular the result is true for every haystack when
the needle is empty, and false when the needle is longer than the haystack. -/
theorem contains_str_iff_substring (haystack needle : List Nat) :
    (hello_xheep.contains_str haystack needle = true
        ↔ c_string needle <:+: c_string haystack)
      ∧ (∀ htext ntext hrest nrest : List Nat,
          (∀ c ∈ htext, c ≠ 0) → (∀ c ∈ ntext, c ≠ 0) →
          (hello_xheep.contains_str (htext ++ 0 :: hrest) (ntext ++ 0 :: nrest) = true
            ↔ ∃ before after, htext = before ++ ntext ++ after))
      ∧ (c_string needle = [] → hello_xheep.contains_str haystack needle = true)
      ∧ ((c_string haystack).length < (c_string needle).length →
          hello_xheep.contains_str haystack needle = false) := by
  refine ⟨contains_str_iff haystack needle, ?_, ?_, ?_⟩
  · intro htext ntext hrest nrest hh hn
    rw [contains_str_iff, c_string_append_zero htext hrest hh,
      c_string_append_zero ntext nrest hn]
    constructor
    · rintro ⟨before, after, e⟩; exact ⟨before, after, e.symm⟩
    · rintro ⟨before, after, e⟩; exact ⟨before, after, e.symm⟩
  · intro e
    rw [contains_str_iff, e]
    exact List.nil_infix
  · intro hlen
    cases hc : hello_xheep.contains_str haystack needle with
    | false => rfl
    | true =>
      have hle := ((contains_str_iff haystack needle).mp hc).length_le
      omega

/-- Witness for C13: "ab" is found in "aab", and the three-character needle "aab" is
not found in the shorter haystack "ab". -/
theorem contains_str_iff_substring_witness :
    hello_xheep.contains_str [97, 97, 98, 0] [97, 98, 0] = true
      ∧ hello_xheep.contains_str [97, 98, 0] [97, 97, 98, 0] = false :=
  ⟨((contains_str_iff_substring [97, 97, 98, 0] [97, 98, 0]).2.1
      [97, 97, 98] [97, 98] [] [] (by decide) (by decide)).mpr ⟨[97], [], rfl⟩,
   (contains_str_iff_substring [97, 98, 0] [97, 97, 98, 0]).2.2.2 (by decide)⟩

/-- C12: the embedded hello firmware writes, as eight little-endian 32-bit words, exactly
the 32 bytes of `xheep_native_msg` (the 31 characters of
"Hello from X-Heep Native tile!\n" and the NUL terminator) at the start of the shared
string region, whatever the region held before: bytes 0..31 are the message, byte 31 is
the only zero written, and no byte from offset 32 on is touched (32 is within the
128-byte region).  On a run of the hello host application in which every call succeeds
and the output buffer holds those 32 bytes at offset 0xFA00, the validation finds the
expected string, the message read is the 31 characters, and no soft error is counted. -/
theorem hello_firmware_message_validated (secs : List xheep_firmware_fw_section_t)
    (w : World) (esp_string : Mem) :
    esp_app_native.xheep_native_msg
        = "Hello from X-Heep Native tile!\n".toList.map Char.toNat ++ [0]
      ∧ esp_app_native.xheep_native_msg.length = 32
      ∧ esp_app_native.num_words = 8
      ∧ 32 ≤ XHEEP_SHARED_STR_MAX
      ∧ (∀ k, k < 32 →
          esp_app_native.main esp_string k = esp_app_native.xheep_native_msg.getD k 0)
      ∧ (∀ k, 32 ≤ k → esp_app_native.main esp_string k = esp_string k)
      ∧ (∀ i, i < 8 →
          load32 (esp_app_native.main esp_string) (4 * i) = esp_app_native.axi_msg_words i)
      ∧ (all_succeed w →
          (∀ k, k < 32 →
            w.out_buffer (0xFA00 + k) = esp_app_native.xheep_native_msg.getD k 0) →
          hello_xheep.contains_str
              (bytes_from w.out_buffer 0xFA00 (hello_xheep.init_parameters secs).out_buffer_size)
              hello_xheep.expected_str = true
            ∧ (hello_xheep.main secs w).errors = 0
            ∧ (hello_xheep.main secs w).exit_code = 0
            ∧ (hello_xheep.main secs w).report
              = some (Report.message
                  ("Hello from X-Heep Native tile!\n".toList.map Char.toNat))) := by
  refine ⟨rfl, by decide, by decide, by decide, firmware_main_written esp_string,
    firmware_main_beyond esp_string, ?_, ?_⟩
  · intro i hi
    interval_cases i <;> rfl
  · intro hs hbytes
    have hsz := hello_out_buffer_size secs
    have haddr : XHEEP_SHARED_STR_ADDR = 0xFA00 := rfl
    have hb := shared_str_bytes w.out_buffer hbytes
    rw [haddr] at hb
    have hf := hello_text_found ((List.range' 32 96).map (fun k => w.out_buffer (0xFA00 + k)))
    have hfound : hello_xheep.contains_str
        (bytes_from w.out_buffer 0xFA00 (hello_xheep.init_parameters secs).out_buffer_size)
        hello_xheep.expected_str = true := by
      rw [hsz, hb]; exact hf.1
    have he := hello_main_completes secs w hs
    have hr := hello_main_report secs w hs
    rw [haddr] at he hr
    have herr : (hello_xheep.main secs w).errors = 0 := by
      rw [he.1, hfound]; rfl
    refine ⟨hfound, herr, ?_, ?_⟩
    · rw [he.2, herr]
    · rw [hr, hsz, hb, hf.2]

/-- Witness for C12: the output buffer that holds, from offset 0xFA00 on, what the
firmware wrote into a zeroed string region, on a run where every call succeeds. -/
theorem hello_firmware_message_validated_witness :
    all_succeed esp_app_native.world_after_hello
      ∧ (hello_xheep.main [] esp_app_native.world_after_hello).errors = 0 :=
  ⟨by decide,
   ((hello_firmware_message_validated [] esp_app_native.world_after_hello
        (fun _ => 0)).2.2.2.2.2.2.2
      (by decide)
      (by intro k hk; interval_cases k <;> rfl)).2.1⟩

end XHeep
